import Mathlib

/-!
Shallow embedding of the exposure-aggregation pipeline of `WK.py`.

The source is a pandas/streamlit script.  We embed the data frame as a
`List ExposureRecord` and every pipeline stage as a pure function:

* pandas float cells are modelled by `PFloat`, which records the IEEE-754
  special values that pandas produces on division by zero (`0/0 = NaN`,
  `x/0 = ±inf` for `x ≠ 0`); finite values are exact rationals;
* `groupby(...).sum()` becomes a sum over the deduplicated key list
  (`List.dedup`; pandas `unique`/`groupby` key order is irrelevant to every
  property below, which are all per-key or per-set statements);
* `pd.merge(..., how='outer')` becomes a lookup over the union of the two
  key lists, with `PFloat.nan` for a missing key (pandas fills NaN there);
* `.fillna(0)` and `.round(2)` become `fillna0` and `round2F`; numpy
  rounding is round-half-to-even, modelled exactly on rationals;
* dates are days since an epoch that falls on a Monday, so the pandas
  weekly period start (`to_period('W').start_time`, Monday-aligned) is
  `7 * (d.fdiv 7)`;
* `st.warning` + `st.stop` becomes an `Except.error (Halt.warning _)`,
  and the uncaught `pd.date_range(NaT, NaT)` `ValueError` (reached when
  the filtered frame is empty) becomes `Except.error (Halt.exception _)`.
-/

/-- A pandas float cell: an exact rational, or one of the IEEE special
values that arise from division by zero. -/
inductive PFloat where
  | val (q : ℚ)
  | nan
  | posInf
  | negInf
deriving DecidableEq

/-- Pandas/numpy float division of two (exactly represented) rationals:
`0/0` is NaN, `x/0` is `±inf` for `x ≠ 0`, otherwise exact. -/
def pdiv (a b : ℚ) : PFloat :=
  if b = 0 then
    if a = 0 then PFloat.nan else if 0 < a then PFloat.posInf else PFloat.negInf
  else PFloat.val (a / b)

/-- Multiplication of a pandas cell by the scalar 100 (the `* 100` on the
percentage columns); the special values absorb it. -/
def pmul100 : PFloat → PFloat
  | PFloat.val q => PFloat.val (q * 100)
  | x => x

/-- The `.fillna(0)` step: NaN becomes 0, every other value is kept
(in particular `±inf` survives `fillna`). -/
def fillna0 : PFloat → PFloat
  | PFloat.nan => PFloat.val 0
  | x => x

/-- Round a rational to the nearest integer, ties to even — numpy's
rounding rule, used by `Series.round`. -/
def roundHalfEven (x : ℚ) : ℤ :=
  if x - (⌊x⌋ : ℚ) < 1/2 then ⌊x⌋
  else if (1 : ℚ)/2 < x - (⌊x⌋ : ℚ) then ⌊x⌋ + 1
  else if Even ⌊x⌋ then ⌊x⌋ else ⌊x⌋ + 1

/-- The `.round(2)` step on a finite cell: round to 2 decimal places. -/
def round2 (x : ℚ) : ℚ := (roundHalfEven (x * 100) : ℚ) / 100

/-- The `.round(2)` step on a pandas cell; special values are unchanged. -/
def round2F : PFloat → PFloat
  | PFloat.val q => PFloat.val (round2 q)
  | x => x

/-- The finite value of a pandas cell (0 for the special values); used
only to state properties about cells already known to be finite. -/
def ratOf : PFloat → ℚ
  | PFloat.val q => q
  | _ => 0

/-- One row of the loaded spreadsheet, after date coercion: columns
`Full Name`, `Name`, `Product`, `Maturity Date`, `Exposure Amount`.
Maturity dates are days since a Monday epoch. -/
structure ExposureRecord where
  fullName : String
  name : String
  product : String
  maturityDate : ℤ
  exposureAmount : ℚ
deriving DecidableEq

/-- Lines 55-58: keep the rows whose client is among the selected clients
and whose stock is among the selected stocks.  The maturity window plays
no role here. -/
def filtered_df (df : List ExposureRecord)
    (selected_clients selected_stocks : List String) : List ExposureRecord :=
  df.filter fun r => r.fullName ∈ selected_clients ∧ r.name ∈ selected_stocks

/-- Lines 74-77: rows of the FULL dataset whose maturity date lies in the
selected window. -/
def maturities_in_period (df : List ExposureRecord)
    (period_start period_end : ℤ) : List ExposureRecord :=
  df.filter fun r => period_start ≤ r.maturityDate ∧ r.maturityDate ≤ period_end

/-- Line 80: the distinct products maturing within the selected window. -/
def products_maturing (df : List ExposureRecord)
    (period_start period_end : ℤ) : List String :=
  ((maturities_in_period df period_start period_end).map (·.product)).dedup

/-- Line 114: the future view drops rows whose product is among the
selected (to-be-excluded) maturities. -/
def future_filtered_df (filtered : List ExposureRecord)
    (selected_products : List String) : List ExposureRecord :=
  filtered.filter fun r => r.product ∉ selected_products

/-- The distinct (client, stock) keys of `groupby(['Full Name','Name'])`. -/
def exposure_keys (rows : List ExposureRecord) : List (String × String) :=
  (rows.map fun r => (r.fullName, r.name)).dedup

/-- The group sum of `Exposure Amount` for one (client, stock) key
(lines 100 / 116). -/
def group_amount (rows : List ExposureRecord) (k : String × String) : ℚ :=
  ((rows.filter fun r => (r.fullName, r.name) = k).map (·.exposureAmount)).sum

/-- Lines 104 / 120: a client's total portfolio, computed as in the source
by summing the per-(client, stock) group sums of that client. -/
def total_portfolio (rows : List ExposureRecord) (c : String) : ℚ :=
  (((exposure_keys rows).filter fun k => k.1 = c).map (group_amount rows)).sum

/-- Lines 100-111 (and, applied to `future_filtered_df`, lines 116-127):
the percentage table `(client, stock) ↦ group sum / client total * 100`,
with pandas division semantics. -/
def pct_table (rows : List ExposureRecord) : List ((String × String) × PFloat) :=
  (exposure_keys rows).map fun k =>
    (k, pmul100 (pdiv (group_amount rows k) (total_portfolio rows k.1)))

/-- Column lookup after a merge: the value at a key, or NaN when the key
is absent from that side (what `how='outer'` puts in a missing cell). -/
def lookupPF (tbl : List ((String × String) × PFloat)) (k : String × String) : PFloat :=
  match tbl.find? (fun t => t.1 = k) with
  | some t => t.2
  | none => PFloat.nan

/-- Lines 130-133: the key set of the outer merge — every (client, stock)
pair present on either side. -/
def merged_keys (filtered : List ExposureRecord)
    (selected_products : List String) : List (String × String) :=
  (exposure_keys filtered
    ++ exposure_keys (future_filtered_df filtered selected_products)).dedup

/-- Lines 130-141: the final exposure table — outer merge of the current
and future percentage tables, then `fillna(0)`, then `round(2)`. -/
def exposure_df (filtered : List ExposureRecord)
    (selected_products : List String) :
    List ((String × String) × PFloat × PFloat) :=
  (merged_keys filtered selected_products).map fun k =>
    (k, round2F (fillna0 (lookupPF (pct_table filtered) k)),
        round2F (fillna0 (lookupPF
          (pct_table (future_filtered_df filtered selected_products)) k)))

/-- Line 229: the Monday-aligned start of the week containing day `d`
(`to_period('W').start_time`; day 0 of the embedding is a Monday). -/
def weekStart (d : ℤ) : ℤ := 7 * (d.fdiv 7)

/-- The distinct (stock, week) keys of the timeline `groupby` (line 232). -/
def heatmap_keys (filtered : List ExposureRecord) : List (String × ℤ) :=
  (filtered.map fun r => (r.name, weekStart r.maturityDate)).dedup

/-- The exposure amount of stock `s` maturing in the week starting at `w`,
summed over the filtered rows. -/
def maturing_sum (filtered : List ExposureRecord) (s : String) (w : ℤ) : ℚ :=
  ((filtered.filter fun r => r.name = s ∧ weekStart r.maturityDate = w).map
    (·.exposureAmount)).sum

/-- Line 232: the grouped timeline data, one row per present (stock, week). -/
def heatmap_data (filtered : List ExposureRecord) : List ((String × ℤ) × ℚ) :=
  (heatmap_keys filtered).map fun k => (k, maturing_sum filtered k.1 k.2)

/-- Lines 235-246: the pivoted, reindexed matrix as a cell function —
the grouped value where the (stock, week) key exists, `fill_value=0`
otherwise. -/
def heatmap_pivot (filtered : List ExposureRecord) (s : String) (w : ℤ) : ℚ :=
  match (heatmap_data filtered).find? (fun t => t.1 = (s, w)) with
  | some t => t.2
  | none => 0

/-- Line 243: all distinct stock names of the FULL dataset. -/
def all_stocks (df : List ExposureRecord) : List String :=
  (df.map (·.name)).dedup

/-- The week-start buckets of the filtered rows (the `Week` column). -/
def week_list (filtered : List ExposureRecord) : List ℤ :=
  filtered.map fun r => weekStart r.maturityDate

/-- The minimum of the `Week` column (meaningful only when nonempty). -/
def min_week (filtered : List ExposureRecord) : ℤ :=
  match week_list filtered with
  | [] => 0
  | w :: ws => ws.foldl min w

/-- The maximum of the `Week` column (meaningful only when nonempty). -/
def max_week (filtered : List ExposureRecord) : ℤ :=
  match week_list filtered with
  | [] => 0
  | w :: ws => ws.foldl max w

/-- Line 244: `pd.date_range(Week.min(), Week.max(), freq='W-MON')` — all
Mondays from the minimum to the maximum week.  On an empty filtered frame
`min`/`max` are NaT and `date_range` raises, modelled by `none`. -/
def all_weeks (filtered : List ExposureRecord) : Option (List ℤ) :=
  if week_list filtered = [] then none
  else some ((List.range ((max_week filtered - min_week filtered).toNat / 7 + 1)).map
    fun i : ℕ => min_week filtered + 7 * (i : ℤ))

/-- How a run ends early: a validation message followed by `st.stop`, or
an uncaught exception. -/
inductive Halt where
  | warning (msg : String)
  | exception (msg : String)
deriving DecidableEq

/-- Everything the dashboard derives: the exposure table and the dense
timeline matrix over `all_stocks × all_weeks`. -/
structure PipelineOutput where
  exposure : List ((String × String) × PFloat × PFloat)
  timeline_stocks : List String
  timeline_weeks : List ℤ
  timeline : List (List ℚ)
deriving DecidableEq

/-- The whole run: the three emptiness guards (lines 34, 50, 90) in source
order, then filtering, the exposure table, and the timeline matrix; the
timeline's `date_range` raises when the filtered frame is empty.
`selected_products` is the user's (possibly narrowed) choice from
`products_maturing`. -/
def runPipeline (df : List ExposureRecord)
    (selected_clients selected_stocks : List String)
    (selected_products : List String) : Except Halt PipelineOutput :=
  if selected_clients.isEmpty then
    Except.error (Halt.warning "Please select at least one client.")
  else if selected_stocks.isEmpty then
    Except.error (Halt.warning "Please select at least one stock.")
  else if selected_products.isEmpty then
    Except.error (Halt.warning "Please select at least one maturity.")
  else
    match all_weeks (filtered_df df selected_clients selected_stocks) with
    | none => Except.error (Halt.exception "ValueError: date_range with NaT endpoints")
    | some ws =>
      Except.ok ⟨exposure_df (filtered_df df selected_clients selected_stocks)
          selected_products, all_stocks df, ws,
        (all_stocks df).map fun s => ws.map fun w =>
          heatmap_pivot (filtered_df df selected_clients selected_stocks) s w⟩

/-- The exposure table a run displays, when it gets that far. -/
def pipelineExposure (df : List ExposureRecord)
    (selected_clients selected_stocks selected_products : List String) :
    Option (List ((String × String) × PFloat × PFloat)) :=
  match runPipeline df selected_clients selected_stocks selected_products with
  | Except.ok out => some out.exposure
  | Except.error _ => none

/-! ### Concrete datasets used by the example claim, counterexamples and
witnesses.  Dates are days since Monday 2024-01-01, so 2024-01-10 is day 9
and 2024-02-10 is day 40. -/

/-- The two-row dataset of the spec's worked example. -/
def dfExample : List ExposureRecord :=
  [⟨"ClientA", "StockX", "ProdA", 9, 1000⟩,
   ⟨"ClientA", "StockY", "ProdB", 40, 1000⟩]

/-- A client whose amounts cancel: the client total is 0 while single
group sums are not. -/
def dfCancel : List ExposureRecord :=
  [⟨"ClientA", "StockX", "Prod1", 0, 1000⟩,
   ⟨"ClientA", "StockY", "Prod2", 0, -1000⟩]

/-- A client with a negative row, pushing one percentage above 100. -/
def dfNegative : List ExposureRecord :=
  [⟨"ClientA", "StockX", "Prod1", 0, 200⟩,
   ⟨"ClientA", "StockY", "Prod2", 0, -100⟩]

/-- Seven equal stocks: each percentage rounds from 100/7 to 14.29, so
the rounded column sums to 100.03. -/
def dfSeven : List ExposureRecord :=
  [⟨"ClientA", "Stock1", "Prod", 0, 1⟩,
   ⟨"ClientA", "Stock2", "Prod", 0, 1⟩,
   ⟨"ClientA", "Stock3", "Prod", 0, 1⟩,
   ⟨"ClientA", "Stock4", "Prod", 0, 1⟩,
   ⟨"ClientA", "Stock5", "Prod", 0, 1⟩,
   ⟨"ClientA", "Stock6", "Prod", 0, 1⟩,
   ⟨"ClientA", "Stock7", "Prod", 0, 1⟩]

/-- A one-client 60/40 portfolio with nothing maturing. -/
def dfSixty : List ExposureRecord :=
  [⟨"ClientA", "StockX", "Prod1", 0, 600⟩,
   ⟨"ClientA", "StockY", "Prod2", 3, 400⟩]

/-- A single all-zero row: the client's total is 0. -/
def dfZero : List ExposureRecord :=
  [⟨"ClientA", "StockX", "Prod1", 0, 0⟩]

/-- Two clients; only ClientA holds the maturing product. -/
def dfTwoClients : List ExposureRecord :=
  [⟨"ClientA", "StockX", "ProdA", 0, 100⟩,
   ⟨"ClientB", "StockY", "ProdB", 0, 200⟩]

/-- Two clients holding disjoint stocks: selecting ClientA with StockY
matches no record. -/
def dfDisjoint : List ExposureRecord :=
  [⟨"ClientA", "StockX", "Prod", 0, 100⟩,
   ⟨"ClientB", "StockY", "Prod", 0, 100⟩]

/-! ### Rounding lemmas -/

/-- Half-even rounding moves a value by at most 1/2. -/
theorem abs_roundHalfEven_sub_le (x : ℚ) : |(roundHalfEven x : ℚ) - x| ≤ 1/2 := by
  have h₁ : (⌊x⌋ : ℚ) ≤ x := Int.floor_le x
  have h₂ : x < ⌊x⌋ + 1 := Int.lt_floor_add_one x
  unfold roundHalfEven
  split_ifs with ha hb hc <;> (rw [abs_le]; push_cast; constructor <;> linarith)

/-- Rounding to 2 decimals moves a value by at most 1/200. -/
theorem abs_round2_sub_le (x : ℚ) : |round2 x - x| ≤ 1/200 := by
  unfold round2
  have h := abs_roundHalfEven_sub_le (x * 100)
  have heq : (roundHalfEven (x * 100) : ℚ) / 100 - x
      = ((roundHalfEven (x * 100) : ℚ) - x * 100) / 100 := by ring
  rw [heq, abs_div]
  rw [show |(100 : ℚ)| = 100 by norm_num]
  linarith [h]

/-- Half-even rounding of an integer is the integer itself. -/
theorem roundHalfEven_intCast (n : ℤ) : roundHalfEven (n : ℚ) = n := by
  unfold roundHalfEven
  rw [Int.floor_intCast]
  norm_num

/-- Evaluation rule for `round2` when the scaled value is an integer. -/
theorem round2_eval (x : ℚ) (n : ℤ) (h : x * 100 = (n : ℚ)) :
    round2 x = (n : ℚ) / 100 := by
  unfold round2; rw [h, roundHalfEven_intCast]

/-- Rounding fixes 0. -/
theorem round2_zero : round2 0 = 0 := by
  rw [round2_eval 0 0 (by norm_num)]; norm_num

/-- Rounding preserves nonnegativity. -/
theorem round2_nonneg (x : ℚ) (hx : 0 ≤ x) : 0 ≤ round2 x := by
  unfold round2
  have hf : (0 : ℤ) ≤ ⌊x * 100⌋ := Int.floor_nonneg.mpr (by positivity)
  have hr : (0 : ℤ) ≤ roundHalfEven (x * 100) := by
    unfold roundHalfEven
    split_ifs <;> omega
  positivity

/-! ### List machinery -/

/-- Upper bound matching `abs_round2_sub_le`. -/
theorem round2_le_hundred (x : ℚ) (hx : x ≤ 100) : round2 x ≤ 100 := by
  have h := abs_roundHalfEven_sub_le (x * 100)
  rw [abs_le] at h
  have h2 : roundHalfEven (x * 100) ≤ 10000 := by
    by_contra hc
    push_neg at hc
    have hcast : ((10001 : ℤ) : ℚ) ≤ (roundHalfEven (x * 100) : ℚ) := by exact_mod_cast hc
    push_cast at hcast
    linarith [h.2]
  unfold round2
  have hcast : (roundHalfEven (x * 100) : ℚ) ≤ 10000 := by exact_mod_cast h2
  linarith

/-- Total rounding error of a rounded column is at most its length times
1/200. -/
theorem sum_round2_bound (l : List ℚ) :
    |(l.map round2).sum - l.sum| ≤ l.length * (1/200) := by
  induction l with
  | nil => simp
  | cons a t ih =>
    simp only [List.map_cons, List.sum_cons, List.length_cons]
    have h := abs_round2_sub_le a
    have step : |round2 a + (t.map round2).sum - (a + t.sum)|
        ≤ |round2 a - a| + |(t.map round2).sum - t.sum| := by
      have : round2 a + (t.map round2).sum - (a + t.sum)
          = (round2 a - a) + ((t.map round2).sum - t.sum) := by ring
      rw [this]
      exact abs_add _ _
    push_cast
    calc |round2 a + (t.map round2).sum - (a + t.sum)|
        ≤ |round2 a - a| + |(t.map round2).sum - t.sum| := step
      _ ≤ 1/200 + t.length * (1/200) := add_le_add h ih
      _ = (t.length + 1) * (1/200) := by ring

/-- Sums of a function over two duplicate-free lists with the same members
agree. -/
theorem sum_map_eq_of_mem_iff {κ : Type} [DecidableEq κ] {l₁ l₂ : List κ}
    (h₁ : l₁.Nodup) (h₂ : l₂.Nodup) (h : ∀ a, a ∈ l₁ ↔ a ∈ l₂) (f : κ → ℚ) :
    (l₁.map f).sum = (l₂.map f).sum :=
  (((List.perm_ext_iff_of_nodup h₁ h₂).mpr h).map f).sum_eq

/-- An `if`-summand at a key absent from the list contributes nothing. -/
theorem sum_map_ite_of_not_mem {κ : Type} [DecidableEq κ] (g : κ → ℚ) (c : ℚ)
    (a : κ) : ∀ K : List κ, a ∉ K →
    (K.map fun k => (if k = a then c else 0) + g k).sum = (K.map g).sum := by
  intro K
  induction K with
  | nil => intro _; simp
  | cons b bs ih =>
    intro hdone
    have hb : b ≠ a := fun h => hdone (h ▸ List.mem_cons_self b bs)
    simp only [List.map_cons, List.sum_cons, if_neg hb, ih (fun h => hdone (List.mem_cons_of_mem b h))]
    ring

/-- An `if`-summand at a key occurring once (duplicate-free list)
contributes exactly its value. -/
theorem sum_map_ite_of_mem {κ : Type} [DecidableEq κ] (g : κ → ℚ) (c : ℚ)
    (a : κ) : ∀ K : List κ, K.Nodup → a ∈ K →
    (K.map fun k => (if k = a then c else 0) + g k).sum = c + (K.map g).sum := by
  intro K
  induction K with
  | nil => intro _ h; cases h
  | cons b bs ih =>
    intro hnd hmem
    rcases List.mem_cons.mp hmem with hba | hrest
    · subst hba
      have hnot : a ∉ bs := (List.nodup_cons.mp hnd).1
      simp only [List.map_cons, List.sum_cons, if_pos rfl, if_true,
        eq_self_iff_true, sum_map_ite_of_not_mem g c a bs hnot]
      ring
    · have hb : b ≠ a := by
        rintro rfl
        exact (List.nodup_cons.mp hnd).1 hrest
      simp only [List.map_cons, List.sum_cons, if_neg hb,
        ih (List.nodup_cons.mp hnd).2 hrest]
      ring

/-- Grouping a list by a key and summing each group recovers the total sum
(the `groupby(...).sum()` partition identity). -/
theorem sum_groups_eq {α κ : Type} [DecidableEq κ] (key : α → κ) (f : α → ℚ) :
    ∀ l : List α,
      ((l.map key).dedup.map fun k => ((l.filter fun x => key x = k).map f).sum).sum
        = (l.map f).sum := by
  intro l
  induction l with
  | nil => simp
  | cons x xs ih =>
    have hterm : ∀ k, (((x :: xs).filter fun y => key y = k).map f).sum
        = (if k = key x then f x else 0)
          + ((xs.filter fun y => key y = k).map f).sum := by
      intro k
      by_cases h : key x = k
      · rw [List.filter_cons, if_pos (by simp [h])]
        simp [h.symm]
      · rw [List.filter_cons, if_neg (by simp [h])]
        have : k ≠ key x := fun hc => h hc.symm
        simp [this]
    by_cases hmem : key x ∈ xs.map key
    · have hded : ((x :: xs).map key).dedup = (xs.map key).dedup := by
        rw [List.map_cons, List.dedup_cons_of_mem hmem]
      rw [hded, List.map_congr_left fun k _ => hterm k,
        sum_map_ite_of_mem _ (f x) (key x) _ (List.nodup_dedup _)
          (List.mem_dedup.mpr hmem), ih]
      simp
    · have hded : ((x :: xs).map key).dedup = key x :: (xs.map key).dedup := by
        rw [List.map_cons, List.dedup_cons_of_not_mem hmem]
      rw [hded, List.map_cons, List.sum_cons, hterm (key x)]
      have hnil : (xs.filter fun y => key y = key x) = [] := by
        rw [List.filter_eq_nil_iff]
        intro a ha
        simp only [decide_eq_true_eq]
        exact fun hc => hmem (hc ▸ List.mem_map_of_mem key ha)
      rw [hnil]
      have hrest : ((xs.map key).dedup.map fun k =>
          (((x :: xs).filter fun y => key y = k).map f).sum)
          = (xs.map key).dedup.map fun k =>
            ((xs.filter fun y => key y = k).map f).sum := by
        apply List.map_congr_left
        intro k hk
        have hkne : k ≠ key x := by
          rintro rfl
          exact hmem (List.mem_dedup.mp hk)
        rw [hterm k, if_neg hkne]
        ring
      rw [hrest, ih]
      simp

/-- In a keyed table built over a key list, `find?` at a listed key
returns that key's entry. -/
theorem find?_key_of_mem {κ β : Type} [DecidableEq κ] (v : κ → β) :
    ∀ (K : List κ) (k : κ), k ∈ K →
      (K.map fun q => (q, v q)).find? (fun t => t.1 = k) = some (k, v k) := by
  intro K
  induction K with
  | nil => intro k hk; cases hk
  | cons b bs ih =>
    intro k hk
    simp only [List.map_cons, List.find?_cons]
    by_cases h : b = k
    · subst h; simp
    · have hd : (decide ((b, v b).1 = k)) = false := by simp [h]
      rw [hd]
      exact ih k (List.mem_cons.mp hk |>.resolve_left fun hc => h hc.symm)

/-- In a keyed table built over a key list, `find?` at an unlisted key
fails. -/
theorem find?_key_of_not_mem {κ β : Type} [DecidableEq κ] (v : κ → β)
    (K : List κ) (k : κ) (hk : k ∉ K) :
    (K.map fun q => (q, v q)).find? (fun t => t.1 = k) = none := by
  rw [List.find?_eq_none]
  intro t ht
  rcases List.mem_map.mp ht with ⟨q, hq, rfl⟩
  simp only [decide_eq_true_eq]
  exact fun hc => hk (hc ▸ hq)

/-- The merged current/future column value at a grouped key. -/
theorem lookupPF_pct_of_mem (rows : List ExposureRecord) (k : String × String)
    (hk : k ∈ exposure_keys rows) :
    lookupPF (pct_table rows) k
      = pmul100 (pdiv (group_amount rows k) (total_portfolio rows k.1)) := by
  unfold lookupPF pct_table
  rw [find?_key_of_mem
    (fun k => pmul100 (pdiv (group_amount rows k) (total_portfolio rows k.1)))
    (exposure_keys rows) k hk]

/-- The merged column value at a key missing from one side is NaN. -/
theorem lookupPF_pct_of_not_mem (rows : List ExposureRecord)
    (k : String × String) (hk : k ∉ exposure_keys rows) :
    lookupPF (pct_table rows) k = PFloat.nan := by
  unfold lookupPF pct_table
  rw [find?_key_of_not_mem
    (fun k => pmul100 (pdiv (group_amount rows k) (total_portfolio rows k.1)))
    (exposure_keys rows) k hk]

/-- A (client, stock) pair is a group key exactly when some row carries it. -/
theorem mem_exposure_keys {rows : List ExposureRecord} {k : String × String} :
    k ∈ exposure_keys rows ↔ ∃ r ∈ rows, (r.fullName, r.name) = k := by
  unfold exposure_keys
  rw [List.mem_dedup, List.mem_map]

/-- Group keys are duplicate-free. -/
theorem exposure_keys_nodup (rows : List ExposureRecord) :
    (exposure_keys rows).Nodup := List.nodup_dedup _

/-- Merged keys are duplicate-free. -/
theorem merged_keys_nodup (filtered : List ExposureRecord)
    (selected_products : List String) :
    (merged_keys filtered selected_products).Nodup := List.nodup_dedup _

/-- A merged key comes from the current side or the future side. -/
theorem mem_merged_keys {filtered : List ExposureRecord}
    {selected_products : List String} {k : String × String} :
    k ∈ merged_keys filtered selected_products
      ↔ k ∈ exposure_keys filtered
        ∨ k ∈ exposure_keys (future_filtered_df filtered selected_products) := by
  unfold merged_keys
  rw [List.mem_dedup, List.mem_append]

/-- Future group keys are current group keys: the future frame is a
row-subset of the filtered frame. -/
theorem exposure_keys_future_subset {filtered : List ExposureRecord}
    {selected_products : List String} {k : String × String}
    (hk : k ∈ exposure_keys (future_filtered_df filtered selected_products)) :
    k ∈ exposure_keys filtered := by
  rcases mem_exposure_keys.mp hk with ⟨r, hr, hkey⟩
  exact mem_exposure_keys.mpr ⟨r, List.mem_of_mem_filter hr, hkey⟩

/-- Since the future keys are a subset, the merged keys are exactly the
current keys. -/
theorem mem_merged_keys_iff_current {filtered : List ExposureRecord}
    {selected_products : List String} {k : String × String} :
    k ∈ merged_keys filtered selected_products ↔ k ∈ exposure_keys filtered := by
  rw [mem_merged_keys]
  exact ⟨fun h => h.elim id exposure_keys_future_subset, Or.inl⟩

/-- A group sum only reads the rows of the key's own client. -/
theorem group_amount_filter_client (rows : List ExposureRecord)
    (k : String × String) :
    group_amount (rows.filter fun r => r.fullName = k.1) k
      = group_amount rows k := by
  unfold group_amount
  rw [List.filter_filter]
  congr 1
  congr 1
  apply List.filter_congr
  intro r _
  by_cases h : (r.fullName, r.name) = k
  · have hc : r.fullName = k.1 := by rw [← h]
    simp [h, hc]
  · simp [h]

/-- The keys of one client among all group keys are the group keys of that
client's row-subset. -/
theorem exposure_keys_filter_client (rows : List ExposureRecord) (c : String)
    (k : String × String) :
    k ∈ (exposure_keys rows).filter (fun k => k.1 = c)
      ↔ k ∈ exposure_keys (rows.filter fun r => r.fullName = c) := by
  simp only [List.mem_filter, mem_exposure_keys, decide_eq_true_eq]
  constructor
  · rintro ⟨⟨r, hr, rfl⟩, hc⟩
    exact ⟨r, ⟨hr, hc⟩, rfl⟩
  · rintro ⟨r, ⟨hrow, hcl⟩, rfl⟩
    exact ⟨⟨r, hrow, rfl⟩, hcl⟩

/-- The client total of the source (a sum of group sums) equals the plain
sum of the client's row amounts. -/
theorem total_portfolio_eq_sum_rows (rows : List ExposureRecord) (c : String) :
    total_portfolio rows c
      = ((rows.filter fun r => r.fullName = c).map (·.exposureAmount)).sum := by
  unfold total_portfolio
  have hA : ((exposure_keys rows).filter fun k => k.1 = c).map (group_amount rows)
      = ((exposure_keys rows).filter fun k => k.1 = c).map
          (group_amount (rows.filter fun r => r.fullName = c)) := by
    apply List.map_congr_left
    intro k hk
    have hc : k.1 = c := by
      simpa using (List.mem_filter.mp hk).2
    have h := group_amount_filter_client rows k
    rw [hc] at h
    exact h.symm
  rw [hA]
  rw [sum_map_eq_of_mem_iff ((exposure_keys_nodup rows).filter _)
    (exposure_keys_nodup (rows.filter fun r => r.fullName = c))
    (exposure_keys_filter_client rows c)
    (group_amount (rows.filter fun r => r.fullName = c))]
  unfold exposure_keys group_amount
  exact sum_groups_eq (fun r : ExposureRecord => (r.fullName, r.name))
    (fun r : ExposureRecord => r.exposureAmount) _

/-- A group sum of nonnegative amounts is nonnegative. -/
theorem group_amount_nonneg (rows : List ExposureRecord) (k : String × String)
    (hnn : ∀ r ∈ rows, 0 ≤ r.exposureAmount) : 0 ≤ group_amount rows k := by
  unfold group_amount
  apply List.sum_nonneg
  intro x hx
  rcases List.mem_map.mp hx with ⟨r, hr, rfl⟩
  exact hnn r (List.mem_of_mem_filter hr)

/-- A client total of nonnegative amounts is nonnegative. -/
theorem total_portfolio_nonneg (rows : List ExposureRecord) (c : String)
    (hnn : ∀ r ∈ rows, 0 ≤ r.exposureAmount) : 0 ≤ total_portfolio rows c := by
  rw [total_portfolio_eq_sum_rows]
  apply List.sum_nonneg
  intro x hx
  rcases List.mem_map.mp hx with ⟨r, hr, rfl⟩
  exact hnn r (List.mem_of_mem_filter hr)

/-- With nonnegative amounts a group sum is at most its client's total. -/
theorem group_amount_le_total (rows : List ExposureRecord) (k : String × String)
    (hk : k ∈ exposure_keys rows) (hnn : ∀ r ∈ rows, 0 ≤ r.exposureAmount) :
    group_amount rows k ≤ total_portfolio rows k.1 := by
  unfold total_portfolio
  apply List.single_le_sum
  · intro x hx
    rcases List.mem_map.mp hx with ⟨k', _, rfl⟩
    exact group_amount_nonneg rows k' hnn
  · exact List.mem_map_of_mem (group_amount rows)
      (List.mem_filter.mpr ⟨hk, by simp⟩)

/-- In a nonnegative list summing to zero every element is zero. -/
theorem eq_zero_of_sum_eq_zero {l : List ℚ} (hnn : ∀ x ∈ l, 0 ≤ x)
    (h : l.sum = 0) : ∀ x ∈ l, x = 0 := by
  induction l with
  | nil => intro x hx; cases hx
  | cons a t ih =>
    have hts : 0 ≤ t.sum := List.sum_nonneg fun x hx => hnn x (List.mem_cons_of_mem a hx)
    have ha : 0 ≤ a := hnn a (List.mem_cons_self a t)
    rw [List.sum_cons] at h
    have ha0 : a = 0 := by linarith
    have ht0 : t.sum = 0 := by linarith
    intro x hx
    rcases List.mem_cons.mp hx with rfl | hxt
    · exact ha0
    · exact ih (fun y hy => hnn y (List.mem_cons_of_mem a hy)) ht0 x hxt

/-- With nonnegative amounts, a zero client total forces every row amount
of that client to be zero. -/
theorem amount_zero_of_total_zero (rows : List ExposureRecord) (c : String)
    (hnn : ∀ r ∈ rows, 0 ≤ r.exposureAmount) (ht : total_portfolio rows c = 0) :
    ∀ r ∈ rows, r.fullName = c → r.exposureAmount = 0 := by
  rw [total_portfolio_eq_sum_rows] at ht
  intro r hr hc
  apply eq_zero_of_sum_eq_zero (l := (rows.filter fun r => r.fullName = c).map (·.exposureAmount))
  · intro x hx
    rcases List.mem_map.mp hx with ⟨s, hs, rfl⟩
    exact hnn s (List.mem_of_mem_filter hs)
  · exact ht
  · exact List.mem_map_of_mem _ (List.mem_filter.mpr ⟨hr, by simp [hc]⟩)

/-- With nonnegative amounts, a zero client total forces each of the
client's group sums to zero. -/
theorem group_amount_zero_of_total_zero (rows : List ExposureRecord)
    (k : String × String) (hnn : ∀ r ∈ rows, 0 ≤ r.exposureAmount)
    (ht : total_portfolio rows k.1 = 0) : group_amount rows k = 0 := by
  unfold group_amount
  apply List.sum_eq_zero
  intro x hx
  rcases List.mem_map.mp hx with ⟨r, hr, rfl⟩
  have hkey : (r.fullName, r.name) = k := by
    simpa using (List.mem_filter.mp hr).2
  have hc : r.fullName = k.1 := by rw [← hkey]
  exact amount_zero_of_total_zero rows k.1 hnn ht r (List.mem_of_mem_filter hr) hc

/-! ### Cell-level lemmas for the merged exposure table -/

/-- A fillna-then-round cell is never NaN. -/
theorem cell_ne_nan (x : PFloat) : round2F (fillna0 x) ≠ PFloat.nan := by
  cases x <;> simp [fillna0, round2F]

/-- Value of a merged cell at a grouped key with a nonzero client total. -/
theorem cell_of_mem_nonzero (rows : List ExposureRecord) (k : String × String)
    (hk : k ∈ exposure_keys rows) (ht : total_portfolio rows k.1 ≠ 0) :
    round2F (fillna0 (lookupPF (pct_table rows) k))
      = PFloat.val (round2 (group_amount rows k / total_portfolio rows k.1 * 100)) := by
  rw [lookupPF_pct_of_mem rows k hk]
  unfold pdiv
  rw [if_neg ht]
  simp [pmul100, fillna0, round2F]

/-- Value of a merged cell at a key missing from this side's grouping. -/
theorem cell_of_not_mem (rows : List ExposureRecord) (k : String × String)
    (hk : k ∉ exposure_keys rows) :
    round2F (fillna0 (lookupPF (pct_table rows) k)) = PFloat.val 0 := by
  rw [lookupPF_pct_of_not_mem rows k hk]
  simp [fillna0, round2F, round2_zero]

/-- With nonnegative amounts, a zero client total makes the client's merged
cells exactly 0 (the pandas `0/0 → NaN → fillna(0)` path). -/
theorem cell_zero_of_total_zero (rows : List ExposureRecord)
    (k : String × String) (hnn : ∀ r ∈ rows, 0 ≤ r.exposureAmount)
    (ht : total_portfolio rows k.1 = 0) :
    round2F (fillna0 (lookupPF (pct_table rows) k)) = PFloat.val 0 := by
  by_cases hk : k ∈ exposure_keys rows
  · rw [lookupPF_pct_of_mem rows k hk,
      group_amount_zero_of_total_zero rows k hnn ht, ht]
    simp [pdiv, pmul100, fillna0, round2F, round2_zero]
  · exact cell_of_not_mem rows k hk

/-- Membership form of the final exposure table. -/
theorem mem_exposure_df {filtered : List ExposureRecord}
    {selected_products : List String}
    {e : (String × String) × PFloat × PFloat} :
    e ∈ exposure_df filtered selected_products
      ↔ ∃ k ∈ merged_keys filtered selected_products,
          e = (k, round2F (fillna0 (lookupPF (pct_table filtered) k)),
               round2F (fillna0 (lookupPF
                 (pct_table (future_filtered_df filtered selected_products)) k))) := by
  unfold exposure_df
  rw [List.mem_map]
  constructor
  · rintro ⟨k, hk, rfl⟩
    exact ⟨k, hk, rfl⟩
  · rintro ⟨k, hk, rfl⟩
    exact ⟨k, hk, rfl⟩

/-! ### Claim theorems -/

/-- C6: the products maturing in the window are exactly the distinct
products of FULL-dataset records whose maturity date lies in [start, end],
and the filtered record set is exactly the records whose client and stock
are selected — the date window imposes no restriction on it. -/
theorem c6_window_and_filter (df : List ExposureRecord) (ps pe : ℤ)
    (selC selS : List String) :
    (∀ p : String, p ∈ products_maturing df ps pe
        ↔ ∃ r ∈ df, r.product = p ∧ ps ≤ r.maturityDate ∧ r.maturityDate ≤ pe)
    ∧ (∀ r : ExposureRecord, r ∈ filtered_df df selC selS
        ↔ r ∈ df ∧ r.fullName ∈ selC ∧ r.name ∈ selS) := by
  constructor
  · intro p
    unfold products_maturing maturities_in_period
    rw [List.mem_dedup, List.mem_map]
    constructor
    · rintro ⟨r, hr, rfl⟩
      rcases List.mem_filter.mp hr with ⟨hrow, hcond⟩
      simp only [decide_eq_true_eq] at hcond
      exact ⟨r, hrow, rfl, hcond.1, hcond.2⟩
    · rintro ⟨r, hr, rfl, h1, h2⟩
      exact ⟨r, List.mem_filter.mpr ⟨hr, by simp [h1, h2]⟩, rfl⟩
  · intro r
    unfold filtered_df
    rw [List.mem_filter]
    simp only [decide_eq_true_eq]

/-- C7: the merged table has a row for every (client, stock) pair present
in either aggregation, and a pair present on only one side gets 0 for the
missing side's percentage. -/
theorem c7_outer_join (filtered : List ExposureRecord)
    (selected_products : List String) :
    (∀ k : String × String,
        (∃ e ∈ exposure_df filtered selected_products, e.1 = k)
          ↔ k ∈ exposure_keys filtered
            ∨ k ∈ exposure_keys (future_filtered_df filtered selected_products))
    ∧ (∀ e ∈ exposure_df filtered selected_products,
        e.1 ∉ exposure_keys (future_filtered_df filtered selected_products) →
          e.2.2 = PFloat.val 0)
    ∧ (∀ e ∈ exposure_df filtered selected_products,
        e.1 ∉ exposure_keys filtered → e.2.1 = PFloat.val 0) := by
  refine ⟨?_, ?_, ?_⟩
  · intro k
    constructor
    · rintro ⟨e, he, rfl⟩
      rcases mem_exposure_df.mp he with ⟨k', hk', rfl⟩
      exact mem_merged_keys.mp hk'
    · intro h
      exact ⟨_, mem_exposure_df.mpr ⟨k, mem_merged_keys.mpr h, rfl⟩, rfl⟩
  · intro e he hk
    rcases mem_exposure_df.mp he with ⟨k, hkm, rfl⟩
    exact cell_of_not_mem _ k hk
  · intro e he hk
    rcases mem_exposure_df.mp he with ⟨k, hkm, rfl⟩
    exact cell_of_not_mem _ k hk

/-- C5: an empty client, stock or included-products selection makes the run
halt with a validation warning (`st.warning` + `st.stop`): no output and no
aggregation, and no exception is the visible behavior. -/
theorem c5_empty_selection_halts (df : List ExposureRecord)
    (selC selS selP : List String) (h : selC = [] ∨ selS = [] ∨ selP = []) :
    ∃ msg : String,
      runPipeline df selC selS selP = Except.error (Halt.warning msg) := by
  unfold runPipeline
  split_ifs with h1 h2 h3
  · exact ⟨_, rfl⟩
  · exact ⟨_, rfl⟩
  · exact ⟨_, rfl⟩
  · rcases h with rfl | rfl | rfl
    · simp at h1
    · simp at h2
    · simp at h3

/-- C1 (amended): provided the filtered amounts are nonnegative, a client
with a zero (current resp. future) total gets 0 in every corresponding
output cell, and no output cell is ever NaN.  (Without nonnegativity the
code can emit ±inf instead — see the counterexample.) -/
theorem c1_zero_denominator (df : List ExposureRecord)
    (selC selS selP : List String)
    (hnn : ∀ r ∈ filtered_df df selC selS, 0 ≤ r.exposureAmount) :
    (∀ e ∈ exposure_df (filtered_df df selC selS) selP,
        e.2.1 ≠ PFloat.nan ∧ e.2.2 ≠ PFloat.nan)
    ∧ (∀ c : String, total_portfolio (filtered_df df selC selS) c = 0 →
        ∀ e ∈ exposure_df (filtered_df df selC selS) selP,
          e.1.1 = c → e.2.1 = PFloat.val 0)
    ∧ (∀ c : String,
        total_portfolio (future_filtered_df (filtered_df df selC selS) selP) c
            = 0 →
        ∀ e ∈ exposure_df (filtered_df df selC selS) selP,
          e.1.1 = c → e.2.2 = PFloat.val 0) := by
  refine ⟨?_, ?_, ?_⟩
  · intro e he
    rcases mem_exposure_df.mp he with ⟨k, hk, rfl⟩
    exact ⟨cell_ne_nan _, cell_ne_nan _⟩
  · intro c ht e he hc
    rcases mem_exposure_df.mp he with ⟨k, hk, rfl⟩
    have hk1 : k.1 = c := hc
    exact cell_zero_of_total_zero _ k hnn (hk1 ▸ ht)
  · intro c ht e he hc
    rcases mem_exposure_df.mp he with ⟨k, hk, rfl⟩
    have hnn' : ∀ r ∈ future_filtered_df (filtered_df df selC selS) selP,
        0 ≤ r.exposureAmount := fun r hr => hnn r (List.mem_of_mem_filter hr)
    have hk1 : k.1 = c := hc
    exact cell_zero_of_total_zero _ k hnn' (hk1 ▸ ht)

/-- Group sums of a client holding no selected product are unchanged by the
future restriction. -/
theorem group_amount_future_of_untouched (filtered : List ExposureRecord)
    (selP : List String) (k : String × String)
    (hcp : ∀ r ∈ filtered, r.fullName = k.1 → r.product ∉ selP) :
    group_amount (future_filtered_df filtered selP) k
      = group_amount filtered k := by
  unfold group_amount future_filtered_df
  rw [List.filter_filter]
  congr 1
  congr 1
  apply List.filter_congr
  intro r hr
  by_cases h : (r.fullName, r.name) = k
  · have hc : r.fullName = k.1 := by rw [← h]
    simp [h, hcp r hr hc]
  · simp [h]

/-- The total of a client holding no selected product is unchanged by the
future restriction. -/
theorem total_portfolio_future_of_untouched (filtered : List ExposureRecord)
    (selP : List String) (c : String)
    (hcp : ∀ r ∈ filtered, r.fullName = c → r.product ∉ selP) :
    total_portfolio (future_filtered_df filtered selP) c
      = total_portfolio filtered c := by
  rw [total_portfolio_eq_sum_rows, total_portfolio_eq_sum_rows]
  congr 1
  congr 1
  unfold future_filtered_df
  rw [List.filter_filter]
  apply List.filter_congr
  intro r hr
  by_cases h : r.fullName = c
  · simp [h, hcp r hr h]
  · simp [h]

/-- The group keys of a client holding no selected product survive the
future restriction. -/
theorem mem_keys_future_of_untouched (filtered : List ExposureRecord)
    (selP : List String) (k : String × String)
    (hcp : ∀ r ∈ filtered, r.fullName = k.1 → r.product ∉ selP)
    (hk : k ∈ exposure_keys filtered) :
    k ∈ exposure_keys (future_filtered_df filtered selP) := by
  rcases mem_exposure_keys.mp hk with ⟨r, hr, hkey⟩
  have hc : r.fullName = k.1 := by rw [← hkey]
  refine mem_exposure_keys.mpr ⟨r, ?_, hkey⟩
  unfold future_filtered_df
  exact List.mem_filter.mpr ⟨hr, by simp [hcp r hr hc]⟩

/-- C10: a client none of whose filtered records carries an included
product has `future_pct = current_pct` on every one of its stocks. -/
theorem c10_untouched_client (df : List ExposureRecord)
    (selC selS selP : List String) (c : String)
    (hcp : ∀ r ∈ filtered_df df selC selS, r.fullName = c → r.product ∉ selP) :
    ∀ e ∈ exposure_df (filtered_df df selC selS) selP,
      e.1.1 = c → e.2.1 = e.2.2 := by
  intro e he hc
  rcases mem_exposure_df.mp he with ⟨k, hk, rfl⟩
  have hk1 : k.1 = c := hc
  subst hk1
  by_cases hkc : k ∈ exposure_keys (filtered_df df selC selS)
  · have hkf : k ∈ exposure_keys
        (future_filtered_df (filtered_df df selC selS) selP) :=
      mem_keys_future_of_untouched _ selP k hcp hkc
    show round2F (fillna0 (lookupPF (pct_table (filtered_df df selC selS)) k))
        = round2F (fillna0 (lookupPF (pct_table
            (future_filtered_df (filtered_df df selC selS) selP)) k))
    rw [lookupPF_pct_of_mem _ k hkc, lookupPF_pct_of_mem _ k hkf,
      group_amount_future_of_untouched _ selP k hcp,
      total_portfolio_future_of_untouched _ selP k.1 hcp]
  · have hkf : k ∉ exposure_keys
        (future_filtered_df (filtered_df df selC selS) selP) :=
      fun h => hkc (exposure_keys_future_subset h)
    show round2F (fillna0 (lookupPF (pct_table (filtered_df df selC selS)) k))
        = round2F (fillna0 (lookupPF (pct_table
            (future_filtered_df (filtered_df df selC selS) selP)) k))
    rw [cell_of_not_mem _ k hkc, cell_of_not_mem _ k hkf]

/-- With nonnegative amounts every merged cell is the 2-decimal rounding
of an unrounded percentage lying in [0, 100]. -/
theorem cell_exists_bounds (rows : List ExposureRecord) (k : String × String)
    (hnn : ∀ r ∈ rows, 0 ≤ r.exposureAmount) :
    ∃ q : ℚ, 0 ≤ q ∧ q ≤ 100
      ∧ fillna0 (lookupPF (pct_table rows) k) = PFloat.val q
      ∧ round2F (fillna0 (lookupPF (pct_table rows) k))
          = PFloat.val (round2 q) := by
  by_cases hk : k ∈ exposure_keys rows
  · by_cases ht : total_portfolio rows k.1 = 0
    · refine ⟨0, le_refl 0, by norm_num, ?_, ?_⟩
      · rw [lookupPF_pct_of_mem rows k hk,
          group_amount_zero_of_total_zero rows k hnn ht, ht]
        simp [pdiv, pmul100, fillna0]
      · rw [cell_zero_of_total_zero rows k hnn ht, round2_zero]
    · have hT : 0 < total_portfolio rows k.1 :=
        lt_of_le_of_ne (total_portfolio_nonneg rows k.1 hnn) (Ne.symm ht)
      have hga0 : 0 ≤ group_amount rows k := group_amount_nonneg rows k hnn
      have hgale : group_amount rows k ≤ total_portfolio rows k.1 :=
        group_amount_le_total rows k hk hnn
      have hdiv : group_amount rows k / total_portfolio rows k.1 ≤ 1 :=
        (div_le_one hT).mpr hgale
      refine ⟨group_amount rows k / total_portfolio rows k.1 * 100,
        by positivity, by linarith, ?_, ?_⟩
      · rw [lookupPF_pct_of_mem rows k hk]
        unfold pdiv
        rw [if_neg ht]
        simp [pmul100, fillna0]
      · exact cell_of_mem_nonzero rows k hk ht
  · refine ⟨0, le_refl 0, by norm_num, ?_, ?_⟩
    · rw [lookupPF_pct_of_not_mem rows k hk]
      simp [fillna0]
    · rw [cell_of_not_mem rows k hk, round2_zero]

/-- C4 (amended): provided the filtered amounts are nonnegative, every
output percentage is the 2-decimal rounding of its unrounded value and
both lie in [0, 100].  (A negative amount breaks the bounds — see the
counterexample.) -/
theorem c4_pct_range (df : List ExposureRecord) (selC selS selP : List String)
    (hnn : ∀ r ∈ filtered_df df selC selS, 0 ≤ r.exposureAmount) :
    ∀ e ∈ exposure_df (filtered_df df selC selS) selP,
      (∃ q : ℚ, 0 ≤ q ∧ q ≤ 100
        ∧ fillna0 (lookupPF (pct_table (filtered_df df selC selS)) e.1)
            = PFloat.val q
        ∧ e.2.1 = PFloat.val (round2 q) ∧ 0 ≤ round2 q ∧ round2 q ≤ 100)
      ∧ (∃ q : ℚ, 0 ≤ q ∧ q ≤ 100
        ∧ fillna0 (lookupPF (pct_table
            (future_filtered_df (filtered_df df selC selS) selP)) e.1)
            = PFloat.val q
        ∧ e.2.2 = PFloat.val (round2 q) ∧ 0 ≤ round2 q ∧ round2 q ≤ 100) := by
  intro e he
  rcases mem_exposure_df.mp he with ⟨k, hk, rfl⟩
  constructor
  · rcases cell_exists_bounds (filtered_df df selC selS) k hnn with
      ⟨q, h0, h100, hfl, hcell⟩
    exact ⟨q, h0, h100, hfl, hcell, round2_nonneg q h0, round2_le_hundred q h100⟩
  · have hnn' : ∀ r ∈ future_filtered_df (filtered_df df selC selS) selP,
        0 ≤ r.exposureAmount := fun r hr => hnn r (List.mem_of_mem_filter hr)
    rcases cell_exists_bounds
        (future_filtered_df (filtered_df df selC selS) selP) k hnn' with
      ⟨q, h0, h100, hfl, hcell⟩
    exact ⟨q, h0, h100, hfl, hcell, round2_nonneg q h0, round2_le_hundred q h100⟩

/-- Summing an `if`-guarded column equals summing the guard's sublist. -/
theorem sum_map_ite_filter {κ : Type} (p : κ → Prop) [DecidablePred p]
    (g : κ → ℚ) : ∀ l : List κ,
    (l.map fun k => if p k then g k else 0).sum
      = ((l.filter fun k => p k).map g).sum := by
  intro l
  induction l with
  | nil => simp
  | cons a t ih =>
    by_cases h : p a
    · simp [List.filter_cons, h, ih]
    · simp [List.filter_cons, h, ih]

/-- One client's rows of the merged table, as a map over that client's
merged keys. -/
theorem exposure_df_filter_client (filtered : List ExposureRecord)
    (selP : List String) (c : String) :
    (exposure_df filtered selP).filter (fun e => e.1.1 = c)
      = ((merged_keys filtered selP).filter fun k => k.1 = c).map
          (fun k => (k, round2F (fillna0 (lookupPF (pct_table filtered) k)),
                     round2F (fillna0 (lookupPF
                       (pct_table (future_filtered_df filtered selP)) k)))) := by
  unfold exposure_df
  rw [List.filter_map]
  congr 1

/-- Core of the percentage-sum invariant: over any duplicate-free key list
holding exactly one client's keys (and at least all of that client's
grouped keys), the rounded percentage column of a side with nonzero client
total consists of rationals summing to 100 up to 1/200 per key. -/
theorem client_side_sum (rows : List ExposureRecord) (c : String)
    (L : List (String × String)) (hL : L.Nodup)
    (hLc : ∀ k ∈ L, k.1 = c)
    (hcov : ∀ k : String × String, k ∈ exposure_keys rows → k.1 = c → k ∈ L)
    (ht : total_portfolio rows c ≠ 0) :
    |(L.map fun k =>
        ratOf (round2F (fillna0 (lookupPF (pct_table rows) k)))).sum - 100|
      ≤ (L.length : ℚ) * (1/200)
    ∧ ∀ k ∈ L, round2F (fillna0 (lookupPF (pct_table rows) k))
        = PFloat.val (ratOf (round2F (fillna0 (lookupPF (pct_table rows) k)))) := by
  have hcell : ∀ k ∈ L, round2F (fillna0 (lookupPF (pct_table rows) k))
      = PFloat.val (if k ∈ exposure_keys rows then
          round2 (group_amount rows k / total_portfolio rows c * 100) else 0) := by
    intro k hkL
    by_cases hk : k ∈ exposure_keys rows
    · rw [if_pos hk]
      have h1 : k.1 = c := hLc k hkL
      rw [cell_of_mem_nonzero rows k hk (by rw [h1]; exact ht), h1]
    · rw [if_neg hk, cell_of_not_mem rows k hk]
  constructor
  · have hmap : L.map (fun k =>
        ratOf (round2F (fillna0 (lookupPF (pct_table rows) k))))
        = L.map (fun k => if k ∈ exposure_keys rows then
            round2 (group_amount rows k / total_portfolio rows c * 100) else 0) := by
      apply List.map_congr_left
      intro k hk
      rw [hcell k hk]
      simp [ratOf]
    rw [hmap, sum_map_ite_filter (fun k => k ∈ exposure_keys rows)
      (fun k => round2 (group_amount rows k / total_portfolio rows c * 100)) L]
    have hperm : List.Perm (L.filter fun k => k ∈ exposure_keys rows)
        ((exposure_keys rows).filter fun k => k.1 = c) := by
      apply (List.perm_ext_iff_of_nodup (hL.filter _)
        ((exposure_keys_nodup rows).filter _)).mpr
      intro k
      simp only [List.mem_filter, decide_eq_true_eq]
      constructor
      · rintro ⟨hkL, hk⟩
        exact ⟨hk, hLc k hkL⟩
      · rintro ⟨hk, hkc⟩
        exact ⟨hcov k hk hkc, hk⟩
    rw [(hperm.map _).sum_eq]
    have hb := sum_round2_bound (((exposure_keys rows).filter fun k => k.1 = c).map
      (fun k => group_amount rows k / total_portfolio rows c * 100))
    have hmm : (((exposure_keys rows).filter fun k => k.1 = c).map
        (fun k => group_amount rows k / total_portfolio rows c * 100)).map round2
        = ((exposure_keys rows).filter fun k => k.1 = c).map
            (fun k => round2 (group_amount rows k / total_portfolio rows c * 100)) := by
      rw [List.map_map]
      rfl
    rw [hmm] at hb
    have hsum100 : (((exposure_keys rows).filter fun k => k.1 = c).map
        (fun k => group_amount rows k / total_portfolio rows c * 100)).sum = 100 := by
      have h1 : ((exposure_keys rows).filter fun k => k.1 = c).map
          (fun k => group_amount rows k / total_portfolio rows c * 100)
          = ((exposure_keys rows).filter fun k => k.1 = c).map
              (fun k => group_amount rows k * (100 / total_portfolio rows c)) := by
        apply List.map_congr_left
        intro k _
        ring
      rw [h1, List.sum_map_mul_right]
      rw [show (((exposure_keys rows).filter fun k => k.1 = c).map
        fun k => group_amount rows k).sum = total_portfolio rows c from rfl]
      field_simp
    rw [hsum100] at hb
    have hlen : ((((exposure_keys rows).filter fun k => k.1 = c).length : ℚ))
        ≤ (L.length : ℚ) := by
      have h2 : ((exposure_keys rows).filter fun k => k.1 = c).length
          ≤ L.length := by
        rw [← hperm.length_eq]
        exact List.length_filter_le _ L
      exact_mod_cast h2
    have hlm : (((exposure_keys rows).filter fun k => k.1 = c).map
        (fun k => group_amount rows k / total_portfolio rows c * 100)).length
        = ((exposure_keys rows).filter fun k => k.1 = c).length :=
      List.length_map _ _
    rw [hlm] at hb
    calc |(((exposure_keys rows).filter fun k => k.1 = c).map
            (fun k => round2 (group_amount rows k / total_portfolio rows c * 100))).sum
          - 100|
        ≤ (((exposure_keys rows).filter fun k => k.1 = c).length : ℚ) * (1/200) := hb
      _ ≤ (L.length : ℚ) * (1/200) := by
          apply mul_le_mul_of_nonneg_right hlen
          norm_num
  · intro k hk
    rw [hcell k hk]
    simp [ratOf]

/-- C3 (amended): for a client whose (current resp. future) filtered total
is nonzero, the corresponding rounded output percentages of that client are
finite rationals summing to 100 within 1/200 (= 0.005) per output row of
the client — not within the flat 0.01 the spec states, which fails from
three stocks up (see the counterexample). -/
theorem c3_pct_sum (df : List ExposureRecord) (selC selS selP : List String)
    (c : String) :
    (total_portfolio (filtered_df df selC selS) c ≠ 0 →
      |(((exposure_df (filtered_df df selC selS) selP).filter
            (fun e => e.1.1 = c)).map (fun e => ratOf e.2.1)).sum - 100|
        ≤ ((((exposure_df (filtered_df df selC selS) selP).filter
            (fun e => e.1.1 = c)).length : ℚ)) * (1/200)
      ∧ ∀ e ∈ (exposure_df (filtered_df df selC selS) selP).filter
            (fun e => e.1.1 = c), e.2.1 = PFloat.val (ratOf e.2.1))
    ∧ (total_portfolio (future_filtered_df (filtered_df df selC selS) selP) c
          ≠ 0 →
      |(((exposure_df (filtered_df df selC selS) selP).filter
            (fun e => e.1.1 = c)).map (fun e => ratOf e.2.2)).sum - 100|
        ≤ ((((exposure_df (filtered_df df selC selS) selP).filter
            (fun e => e.1.1 = c)).length : ℚ)) * (1/200)
      ∧ ∀ e ∈ (exposure_df (filtered_df df selC selS) selP).filter
            (fun e => e.1.1 = c), e.2.2 = PFloat.val (ratOf e.2.2)) := by
  have hL : ((merged_keys (filtered_df df selC selS) selP).filter
      (fun k => k.1 = c)).Nodup :=
    (merged_keys_nodup (filtered_df df selC selS) selP).filter _
  have hLc : ∀ k ∈ (merged_keys (filtered_df df selC selS) selP).filter
      (fun k => k.1 = c), k.1 = c := by
    intro k hk
    simpa using (List.mem_filter.mp hk).2
  constructor
  · intro ht
    have hcov : ∀ k : String × String,
        k ∈ exposure_keys (filtered_df df selC selS) → k.1 = c →
        k ∈ (merged_keys (filtered_df df selC selS) selP).filter
          (fun k => k.1 = c) := by
      intro k hk hc
      exact List.mem_filter.mpr ⟨mem_merged_keys_iff_current.mpr hk, by simp [hc]⟩
    have hside := client_side_sum (filtered_df df selC selS) c _ hL hLc hcov ht
    constructor
    · rw [exposure_df_filter_client, List.map_map, List.length_map]
      exact hside.1
    · intro e he
      rw [exposure_df_filter_client] at he
      rcases List.mem_map.mp he with ⟨k, hk, rfl⟩
      exact hside.2 k hk
  · intro ht
    have hcov : ∀ k : String × String,
        k ∈ exposure_keys (future_filtered_df (filtered_df df selC selS) selP) →
        k.1 = c →
        k ∈ (merged_keys (filtered_df df selC selS) selP).filter
          (fun k => k.1 = c) := by
      intro k hk hc
      exact List.mem_filter.mpr ⟨mem_merged_keys.mpr (Or.inr hk), by simp [hc]⟩
    have hside := client_side_sum
      (future_filtered_df (filtered_df df selC selS) selP) c _ hL hLc hcov ht
    constructor
    · rw [exposure_df_filter_client, List.map_map, List.length_map]
      exact hside.1
    · intro e he
      rw [exposure_df_filter_client] at he
      rcases List.mem_map.mp he with ⟨k, hk, rfl⟩
      exact hside.2 k hk

/-! ### Concrete evaluations -/

/-- Rounding fixes 50. -/
theorem round2_fifty : round2 50 = 50 := by
  rw [round2_eval 50 5000 (by norm_num)]; norm_num

/-- Rounding fixes 100. -/
theorem round2_hundred : round2 100 = 100 := by
  rw [round2_eval 100 10000 (by norm_num)]; norm_num

/-- Group sum of ClientA/StockX in the worked example. -/
theorem example_group_x : group_amount dfExample ("ClientA", "StockX") = 1000 := by
  have h : dfExample.filter (fun r => (r.fullName, r.name) = ("ClientA", "StockX"))
      = [⟨"ClientA", "StockX", "ProdA", 9, 1000⟩] := rfl
  unfold group_amount
  rw [h]
  simp

/-- Group sum of ClientA/StockY in the worked example. -/
theorem example_group_y : group_amount dfExample ("ClientA", "StockY") = 1000 := by
  have h : dfExample.filter (fun r => (r.fullName, r.name) = ("ClientA", "StockY"))
      = [⟨"ClientA", "StockY", "ProdB", 40, 1000⟩] := rfl
  unfold group_amount
  rw [h]
  simp

/-- ClientA's total in the worked example. -/
theorem example_total : total_portfolio dfExample "ClientA" = 2000 := by
  rw [total_portfolio_eq_sum_rows]
  have h : dfExample.filter (fun r => r.fullName = "ClientA") = dfExample := rfl
  rw [h]
  norm_num [dfExample]

/-- Current percentage table of the worked example. -/
theorem example_pct_current : pct_table dfExample
    = [(("ClientA", "StockX"), PFloat.val 50),
       (("ClientA", "StockY"), PFloat.val 50)] := by
  unfold pct_table
  rw [show exposure_keys dfExample
    = [("ClientA", "StockX"), ("ClientA", "StockY")] from rfl]
  simp only [List.map_cons, List.map_nil]
  rw [example_group_x, example_group_y]
  norm_num [pdiv, pmul100, example_total]

/-- Future percentage table of the worked example (ProdA excluded). -/
theorem example_pct_future :
    pct_table [(⟨"ClientA", "StockY", "ProdB", 40, 1000⟩ : ExposureRecord)]
    = [(("ClientA", "StockY"), PFloat.val 100)] := by
  unfold pct_table
  rw [show exposure_keys [(⟨"ClientA", "StockY", "ProdB", 40, 1000⟩ : ExposureRecord)]
      = [("ClientA", "StockY")] from rfl]
  simp only [List.map_cons, List.map_nil]
  have hga : group_amount [(⟨"ClientA", "StockY", "ProdB", 40, 1000⟩ : ExposureRecord)]
      ("ClientA", "StockY") = 1000 := by
    unfold group_amount
    rw [show List.filter (fun r => decide ((r.fullName, r.name) = ("ClientA", "StockY")))
        [(⟨"ClientA", "StockY", "ProdB", 40, 1000⟩ : ExposureRecord)]
        = [⟨"ClientA", "StockY", "ProdB", 40, 1000⟩] from rfl]
    simp
  have htpf : total_portfolio [(⟨"ClientA", "StockY", "ProdB", 40, 1000⟩ : ExposureRecord)]
      "ClientA" = 1000 := by
    rw [total_portfolio_eq_sum_rows]
    rw [show List.filter (fun r => decide (r.fullName = "ClientA"))
        [(⟨"ClientA", "StockY", "ProdB", 40, 1000⟩ : ExposureRecord)]
        = [⟨"ClientA", "StockY", "ProdB", 40, 1000⟩] from rfl]
    simp
  norm_num [pdiv, pmul100, hga, htpf]

/-- The merged output table of the worked example. -/
theorem example_exposure_df : exposure_df dfExample ["ProdA"]
    = [(("ClientA", "StockX"), PFloat.val 50, PFloat.val 0),
       (("ClientA", "StockY"), PFloat.val 50, PFloat.val 100)] := by
  unfold exposure_df
  rw [show merged_keys dfExample ["ProdA"]
      = [("ClientA", "StockX"), ("ClientA", "StockY")] from rfl]
  rw [show future_filtered_df dfExample ["ProdA"]
      = [⟨"ClientA", "StockY", "ProdB", 40, 1000⟩] from rfl]
  rw [example_pct_current, example_pct_future]
  simp only [List.map_cons, List.map_nil]
  rw [show lookupPF [(("ClientA", "StockX"), PFloat.val 50),
        (("ClientA", "StockY"), PFloat.val 50)] ("ClientA", "StockX")
      = PFloat.val 50 from rfl,
    show lookupPF [(("ClientA", "StockX"), PFloat.val 50),
        (("ClientA", "StockY"), PFloat.val 50)] ("ClientA", "StockY")
      = PFloat.val 50 from rfl,
    show lookupPF [(("ClientA", "StockY"), PFloat.val 100)] ("ClientA", "StockX")
      = PFloat.nan from rfl,
    show lookupPF [(("ClientA", "StockY"), PFloat.val 100)] ("ClientA", "StockY")
      = PFloat.val 100 from rfl]
  simp [fillna0, round2F, round2_fifty, round2_hundred, round2_zero]

/-- C2: on the spec's two-row example with window [0, 45] (covering both
dates) and ProdA included, the pipeline outputs current 50/50 and future
0/100 for StockX/StockY. -/
theorem c2_worked_example :
    products_maturing dfExample 0 45 = ["ProdA", "ProdB"]
    ∧ pipelineExposure dfExample ["ClientA"] ["StockX", "StockY"] ["ProdA"]
      = some [(("ClientA", "StockX"), PFloat.val 50, PFloat.val 0),
              (("ClientA", "StockY"), PFloat.val 50, PFloat.val 100)] := by
  constructor
  · rfl
  · unfold pipelineExposure runPipeline
    rw [show filtered_df dfExample ["ClientA"] ["StockX", "StockY"] = dfExample from rfl]
    rw [show all_weeks dfExample = some [7, 14, 21, 28, 35] from rfl]
    simp only [List.isEmpty_cons, if_false, Bool.false_eq_true]
    rw [example_exposure_df]

/-- C9: the guards check only selection sizes, so a non-empty client,
stock and product selection whose conjunction matches no record passes all
validation halts, reaches the timeline's week-range construction with an
empty filtered set (min/max undefined), and the run ends in an exception
rather than the clean halt-and-prompt. -/
theorem c9_empty_filter_reaches_aggregation :
    (["ClientA"] : List String) ≠ []
    ∧ (["StockY"] : List String) ≠ []
    ∧ (["Prod"] : List String) ≠ []
    ∧ products_maturing dfDisjoint 0 0 = ["Prod"]
    ∧ filtered_df dfDisjoint ["ClientA"] ["StockY"] = []
    ∧ all_weeks (filtered_df dfDisjoint ["ClientA"] ["StockY"]) = none
    ∧ runPipeline dfDisjoint ["ClientA"] ["StockY"] ["Prod"]
      = Except.error (Halt.exception "ValueError: date_range with NaT endpoints") := by
  refine ⟨by simp, by simp, by simp, rfl, rfl, rfl, rfl⟩

/-! ### Timeline lemmas -/

/-- The pivoted, reindexed timeline cell always equals the plain sum of
the matching filtered rows. -/
theorem heatmap_pivot_eq_maturing_sum (filtered : List ExposureRecord)
    (s : String) (w : ℤ) :
    heatmap_pivot filtered s w = maturing_sum filtered s w := by
  unfold heatmap_pivot heatmap_data
  by_cases hk : (s, w) ∈ heatmap_keys filtered
  · rw [find?_key_of_mem (fun k => maturing_sum filtered k.1 k.2)
      (heatmap_keys filtered) (s, w) hk]
  · rw [find?_key_of_not_mem (fun k => maturing_sum filtered k.1 k.2)
      (heatmap_keys filtered) (s, w) hk]
    unfold maturing_sum
    rw [List.filter_eq_nil_iff.mpr ?_]
    · simp
    · intro r hr
      simp only [decide_eq_true_eq, not_and]
      intro hname hweek
      exact hk (by
        unfold heatmap_keys
        rw [List.mem_dedup]
        exact List.mem_map.mpr ⟨r, hr, by rw [hname, hweek]⟩)

/-- A left fold by `min` lands on the seed or a list element. -/
theorem foldl_min_mem : ∀ (l : List ℤ) (w : ℤ), l.foldl min w ∈ w :: l := by
  intro l
  induction l with
  | nil => intro w; simp
  | cons a t ih =>
    intro w
    rw [List.foldl_cons]
    rcases List.mem_cons.mp (ih (min w a)) with h1 | h2
    · rcases min_choice w a with hm | hm
      · rw [h1, hm]
        exact List.mem_cons_self _ _
      · rw [h1, hm]
        exact List.mem_cons_of_mem _ (List.mem_cons_self _ _)
    · exact List.mem_cons_of_mem _ (List.mem_cons_of_mem _ h2)

/-- A left fold by `min` bounds the seed and every element from below. -/
theorem foldl_min_le : ∀ (l : List ℤ) (w x : ℤ), x ∈ w :: l → l.foldl min w ≤ x := by
  intro l
  induction l with
  | nil =>
    intro w x hx
    simp only [List.mem_cons, List.not_mem_nil, or_false] at hx
    simp [hx]
  | cons a t ih =>
    intro w x hx
    rw [List.foldl_cons]
    have hseed : t.foldl min (min w a) ≤ min w a :=
      ih (min w a) (min w a) (List.mem_cons_self _ _)
    rcases List.mem_cons.mp hx with h | hr
    · subst h
      exact hseed.trans (min_le_left _ _)
    · rcases List.mem_cons.mp hr with h2 | h3
      · subst h2
        exact hseed.trans (min_le_right _ _)
      · exact ih (min w a) x (List.mem_cons_of_mem _ h3)

/-- A left fold by `max` lands on the seed or a list element. -/
theorem foldl_max_mem : ∀ (l : List ℤ) (w : ℤ), l.foldl max w ∈ w :: l := by
  intro l
  induction l with
  | nil => intro w; simp
  | cons a t ih =>
    intro w
    rw [List.foldl_cons]
    rcases List.mem_cons.mp (ih (max w a)) with h1 | h2
    · rcases max_choice w a with hm | hm
      · rw [h1, hm]
        exact List.mem_cons_self _ _
      · rw [h1, hm]
        exact List.mem_cons_of_mem _ (List.mem_cons_self _ _)
    · exact List.mem_cons_of_mem _ (List.mem_cons_of_mem _ h2)

/-- A left fold by `max` bounds the seed and every element from above. -/
theorem le_foldl_max : ∀ (l : List ℤ) (w x : ℤ), x ∈ w :: l → x ≤ l.foldl max w := by
  intro l
  induction l with
  | nil =>
    intro w x hx
    simp only [List.mem_cons, List.not_mem_nil, or_false] at hx
    simp [hx]
  | cons a t ih =>
    intro w x hx
    rw [List.foldl_cons]
    have hseed : max w a ≤ t.foldl max (max w a) :=
      ih (max w a) (max w a) (List.mem_cons_self _ _)
    rcases List.mem_cons.mp hx with h | hr
    · subst h
      exact (le_max_left _ _).trans hseed
    · rcases List.mem_cons.mp hr with h2 | h3
      · subst h2
        exact (le_max_right _ _).trans hseed
      · exact ih (max w a) x (List.mem_cons_of_mem _ h3)

/-- Week starts are Monday-aligned: multiples of 7 in the embedding. -/
theorem weekStart_dvd (d : ℤ) : 7 ∣ weekStart d := ⟨d.fdiv 7, rfl⟩

/-- Every entry of the `Week` column is a multiple of 7. -/
theorem week_list_dvd (filtered : List ExposureRecord) :
    ∀ x ∈ week_list filtered, 7 ∣ x := by
  intro x hx
  rcases List.mem_map.mp hx with ⟨r, _, rfl⟩
  exact weekStart_dvd _

/-- On a nonempty filtered frame `date_range` succeeds and produces exactly
the Monday-aligned weeks between the minimum and maximum week bucket. -/
theorem all_weeks_spec (filtered : List ExposureRecord) (h : filtered ≠ []) :
    ∃ ws : List ℤ, all_weeks filtered = some ws
      ∧ ∀ w : ℤ, w ∈ ws ↔
          7 ∣ w ∧ min_week filtered ≤ w ∧ w ≤ max_week filtered := by
  have hne : week_list filtered ≠ [] := by
    unfold week_list
    simpa using h
  rcases hwl : week_list filtered with _ | ⟨w0, tl⟩
  · exact absurd hwl hne
  have hlo : min_week filtered = tl.foldl min w0 := by
    unfold min_week
    rw [hwl]
  have hhi : max_week filtered = tl.foldl max w0 := by
    unfold max_week
    rw [hwl]
  have hlomem : min_week filtered ∈ week_list filtered := by
    rw [hlo, hwl]
    exact foldl_min_mem tl w0
  have hhimem : max_week filtered ∈ week_list filtered := by
    rw [hhi, hwl]
    exact foldl_max_mem tl w0
  have hlodvd : 7 ∣ min_week filtered := week_list_dvd filtered _ hlomem
  have hhidvd : 7 ∣ max_week filtered := week_list_dvd filtered _ hhimem
  have hlohi : min_week filtered ≤ max_week filtered := by
    rw [hlo]
    apply foldl_min_le tl w0
    rw [← hwl]
    exact hhimem
  rcases dvd_sub hhidvd hlodvd with ⟨m, hm⟩
  refine ⟨(List.range ((max_week filtered - min_week filtered).toNat / 7 + 1)).map
      (fun i : ℕ => min_week filtered + 7 * (i : ℤ)), ?_, ?_⟩
  · unfold all_weeks
    rw [if_neg hne]
  · intro w
    constructor
    · intro hw
      rcases List.mem_map.mp hw with ⟨i, him, rfl⟩
      rw [List.mem_range] at him
      refine ⟨dvd_add hlodvd (dvd_mul_right 7 _), by omega, ?_⟩
      omega
    · rintro ⟨hdvd, hge, hle⟩
      rcases dvd_sub hdvd hlodvd with ⟨j, hj⟩
      refine List.mem_map.mpr ⟨j.toNat, ?_, ?_⟩
      · rw [List.mem_range]
        omega
      · omega

/-- C8: on a nonempty filtered set the timeline matrix is total over
{all stocks of the full dataset} × {all Monday-aligned weeks from the
filtered minimum to maximum week}, each cell is the sum of the filtered
exposure of that stock maturing that week, and any (stock, week) absent
from the filtered rows yields 0. -/
theorem c8_timeline_matrix (df : List ExposureRecord) (selC selS : List String)
    (h : filtered_df df selC selS ≠ []) :
    ∃ ws : List ℤ, all_weeks (filtered_df df selC selS) = some ws
      ∧ (∀ w : ℤ, w ∈ ws ↔ 7 ∣ w
          ∧ min_week (filtered_df df selC selS) ≤ w
          ∧ w ≤ max_week (filtered_df df selC selS))
      ∧ (∀ s ∈ all_stocks df, ∀ w ∈ ws,
          heatmap_pivot (filtered_df df selC selS) s w
            = maturing_sum (filtered_df df selC selS) s w)
      ∧ (∀ (s : String) (w : ℤ),
          (∀ r ∈ filtered_df df selC selS,
            ¬(r.name = s ∧ weekStart r.maturityDate = w)) →
          heatmap_pivot (filtered_df df selC selS) s w = 0) := by
  rcases all_weeks_spec (filtered_df df selC selS) h with ⟨ws, hws, hmem⟩
  refine ⟨ws, hws, hmem, ?_, ?_⟩
  · intro s _ w _
    exact heatmap_pivot_eq_maturing_sum _ s w
  · intro s w habs
    rw [heatmap_pivot_eq_maturing_sum]
    unfold maturing_sum
    rw [List.filter_eq_nil_iff.mpr ?_]
    · simp
    · intro r hr
      simp only [decide_eq_true_eq]
      exact habs r hr

/-- ClientA's total cancels to 0 in `dfCancel`. -/
theorem cancel_total : total_portfolio dfCancel "ClientA" = 0 := by
  rw [total_portfolio_eq_sum_rows]
  rw [show dfCancel.filter (fun r => r.fullName = "ClientA") = dfCancel from rfl]
  norm_num [dfCancel]

/-- Percentage table of `dfCancel`: the zero denominator with nonzero
numerators produces infinities, exactly as pandas float division does. -/
theorem cancel_pct_table : pct_table dfCancel
    = [(("ClientA", "StockX"), PFloat.posInf),
       (("ClientA", "StockY"), PFloat.negInf)] := by
  unfold pct_table
  rw [show exposure_keys dfCancel
    = [("ClientA", "StockX"), ("ClientA", "StockY")] from rfl]
  simp only [List.map_cons, List.map_nil]
  rw [show group_amount dfCancel ("ClientA", "StockX") = 1000 from by
    unfold group_amount
    rw [show dfCancel.filter (fun r => (r.fullName, r.name) = ("ClientA", "StockX"))
      = [⟨"ClientA", "StockX", "Prod1", 0, 1000⟩] from rfl]
    simp]
  rw [show group_amount dfCancel ("ClientA", "StockY") = -1000 from by
    unfold group_amount
    rw [show dfCancel.filter (fun r => (r.fullName, r.name) = ("ClientA", "StockY"))
      = [⟨"ClientA", "StockY", "Prod2", 0, -1000⟩] from rfl]
    simp]
  norm_num [pdiv, pmul100, cancel_total]

/-- C1 counterexample: with a zero total-exposure denominator the output
percentage need not be 0 — on `dfCancel` (amounts 1000 and -1000) the
output cells are ±inf, refuting the claim as stated for general inputs. -/
theorem c1_counterexample :
    total_portfolio (filtered_df dfCancel ["ClientA"] ["StockX", "StockY"])
        "ClientA" = 0
    ∧ exposure_df (filtered_df dfCancel ["ClientA"] ["StockX", "StockY"]) ["Qx"]
      = [(("ClientA", "StockX"), PFloat.posInf, PFloat.posInf),
         (("ClientA", "StockY"), PFloat.negInf, PFloat.negInf)]
    ∧ PFloat.posInf ≠ PFloat.val 0 := by
  rw [show filtered_df dfCancel ["ClientA"] ["StockX", "StockY"] = dfCancel from rfl]
  refine ⟨cancel_total, ?_, by simp⟩
  unfold exposure_df
  rw [show merged_keys dfCancel ["Qx"]
    = [("ClientA", "StockX"), ("ClientA", "StockY")] from rfl]
  rw [show future_filtered_df dfCancel ["Qx"] = dfCancel from rfl]
  rw [cancel_pct_table]
  simp only [List.map_cons, List.map_nil]
  rw [show lookupPF [(("ClientA", "StockX"), PFloat.posInf),
        (("ClientA", "StockY"), PFloat.negInf)] ("ClientA", "StockX")
      = PFloat.posInf from rfl,
    show lookupPF [(("ClientA", "StockX"), PFloat.posInf),
        (("ClientA", "StockY"), PFloat.negInf)] ("ClientA", "StockY")
      = PFloat.negInf from rfl]
  simp [fillna0, round2F]

/-- Rounding fixes 200. -/
theorem round2_two_hundred : round2 200 = 200 := by
  rw [round2_eval 200 20000 (by norm_num)]; norm_num

/-- Rounding fixes -100. -/
theorem round2_neg_hundred : round2 (-100) = -100 := by
  rw [round2_eval (-100) (-10000) (by norm_num)]; norm_num

/-- Percentage table of `dfNegative`: the negative row pushes StockX's
percentage to 200. -/
theorem negative_pct_table : pct_table dfNegative
    = [(("ClientA", "StockX"), PFloat.val 200),
       (("ClientA", "StockY"), PFloat.val (-100))] := by
  unfold pct_table
  rw [show exposure_keys dfNegative
    = [("ClientA", "StockX"), ("ClientA", "StockY")] from rfl]
  simp only [List.map_cons, List.map_nil]
  rw [show group_amount dfNegative ("ClientA", "StockX") = 200 from by
    unfold group_amount
    rw [show dfNegative.filter (fun r => (r.fullName, r.name) = ("ClientA", "StockX"))
      = [⟨"ClientA", "StockX", "Prod1", 0, 200⟩] from rfl]
    simp]
  rw [show group_amount dfNegative ("ClientA", "StockY") = -100 from by
    unfold group_amount
    rw [show dfNegative.filter (fun r => (r.fullName, r.name) = ("ClientA", "StockY"))
      = [⟨"ClientA", "StockY", "Prod2", 0, -100⟩] from rfl]
    simp]
  rw [show total_portfolio dfNegative "ClientA" = 100 from by
    rw [total_portfolio_eq_sum_rows]
    rw [show dfNegative.filter (fun r => r.fullName = "ClientA") = dfNegative from rfl]
    norm_num [dfNegative]]
  norm_num [pdiv, pmul100]

/-- C4 counterexample: with a negative exposure amount an output
percentage of 200 (outside [0, 100]) appears in the table. -/
theorem c4_counterexample :
    (("ClientA", "StockX"), PFloat.val 200, PFloat.val 200)
      ∈ exposure_df (filtered_df dfNegative ["ClientA"] ["StockX", "StockY"]) ["Qx"]
    ∧ ¬ ((200 : ℚ) ≤ 100) := by
  rw [show filtered_df dfNegative ["ClientA"] ["StockX", "StockY"] = dfNegative from rfl]
  constructor
  · have hexp : exposure_df dfNegative ["Qx"]
        = [(("ClientA", "StockX"), PFloat.val 200, PFloat.val 200),
           (("ClientA", "StockY"), PFloat.val (-100), PFloat.val (-100))] := by
      unfold exposure_df
      rw [show merged_keys dfNegative ["Qx"]
        = [("ClientA", "StockX"), ("ClientA", "StockY")] from rfl]
      rw [show future_filtered_df dfNegative ["Qx"] = dfNegative from rfl]
      rw [negative_pct_table]
      simp only [List.map_cons, List.map_nil]
      rw [show lookupPF [(("ClientA", "StockX"), PFloat.val 200),
            (("ClientA", "StockY"), PFloat.val (-100))] ("ClientA", "StockX")
          = PFloat.val 200 from rfl,
        show lookupPF [(("ClientA", "StockX"), PFloat.val 200),
            (("ClientA", "StockY"), PFloat.val (-100))] ("ClientA", "StockY")
          = PFloat.val (-100) from rfl]
      simp [fillna0, round2F, round2_two_hundred, round2_neg_hundred]
    rw [hexp]
    exact List.mem_cons_self _ _
  · norm_num

/-- ClientA's total in `dfSeven`. -/
theorem seven_total : total_portfolio dfSeven "ClientA" = 7 := by
  rw [total_portfolio_eq_sum_rows]
  rw [show dfSeven.filter (fun r => r.fullName = "ClientA") = dfSeven from rfl]
  norm_num [dfSeven]

/-- Each of the seven equal stocks holds an unrounded 100/7 percent. -/
theorem seven_pct_table : pct_table dfSeven
    = [(("ClientA", "Stock1"), PFloat.val (100/7)),
       (("ClientA", "Stock2"), PFloat.val (100/7)),
       (("ClientA", "Stock3"), PFloat.val (100/7)),
       (("ClientA", "Stock4"), PFloat.val (100/7)),
       (("ClientA", "Stock5"), PFloat.val (100/7)),
       (("ClientA", "Stock6"), PFloat.val (100/7)),
       (("ClientA", "Stock7"), PFloat.val (100/7))] := by
  unfold pct_table
  rw [show exposure_keys dfSeven = [("ClientA", "Stock1"), ("ClientA", "Stock2"), ("ClientA", "Stock3"), ("ClientA", "Stock4"), ("ClientA", "Stock5"), ("ClientA", "Stock6"), ("ClientA", "Stock7")] from rfl]
  simp only [List.map_cons, List.map_nil]
  rw [show group_amount dfSeven ("ClientA", "Stock1") = 1 from by
    unfold group_amount
    rw [show dfSeven.filter (fun r => (r.fullName, r.name) = ("ClientA", "Stock1"))
      = [⟨"ClientA", "Stock1", "Prod", 0, 1⟩] from rfl]
    simp]
  rw [show group_amount dfSeven ("ClientA", "Stock2") = 1 from by
    unfold group_amount
    rw [show dfSeven.filter (fun r => (r.fullName, r.name) = ("ClientA", "Stock2"))
      = [⟨"ClientA", "Stock2", "Prod", 0, 1⟩] from rfl]
    simp]
  rw [show group_amount dfSeven ("ClientA", "Stock3") = 1 from by
    unfold group_amount
    rw [show dfSeven.filter (fun r => (r.fullName, r.name) = ("ClientA", "Stock3"))
      = [⟨"ClientA", "Stock3", "Prod", 0, 1⟩] from rfl]
    simp]
  rw [show group_amount dfSeven ("ClientA", "Stock4") = 1 from by
    unfold group_amount
    rw [show dfSeven.filter (fun r => (r.fullName, r.name) = ("ClientA", "Stock4"))
      = [⟨"ClientA", "Stock4", "Prod", 0, 1⟩] from rfl]
    simp]
  rw [show group_amount dfSeven ("ClientA", "Stock5") = 1 from by
    unfold group_amount
    rw [show dfSeven.filter (fun r => (r.fullName, r.name) = ("ClientA", "Stock5"))
      = [⟨"ClientA", "Stock5", "Prod", 0, 1⟩] from rfl]
    simp]
  rw [show group_amount dfSeven ("ClientA", "Stock6") = 1 from by
    unfold group_amount
    rw [show dfSeven.filter (fun r => (r.fullName, r.name) = ("ClientA", "Stock6"))
      = [⟨"ClientA", "Stock6", "Prod", 0, 1⟩] from rfl]
    simp]
  rw [show group_amount dfSeven ("ClientA", "Stock7") = 1 from by
    unfold group_amount
    rw [show dfSeven.filter (fun r => (r.fullName, r.name) = ("ClientA", "Stock7"))
      = [⟨"ClientA", "Stock7", "Prod", 0, 1⟩] from rfl]
    simp]
  norm_num [pdiv, pmul100, seven_total]

/-- 100/7 rounds to 14.29 at two decimals. -/
theorem round2_hundred_sevenths : round2 (100/7) = 1429/100 := by
  unfold round2
  have hfl : ⌊(100/7 : ℚ) * 100⌋ = 1428 := by
    rw [Int.floor_eq_iff]
    constructor <;> norm_num
  unfold roundHalfEven
  rw [hfl]
  rw [if_neg (by push_cast; norm_num), if_pos (by push_cast; norm_num)]
  norm_num

/-- The merged table of `dfSeven`: seven rows of 14.29 on both sides. -/
theorem seven_exposure_df : exposure_df dfSeven ["Qx"]
    = [(("ClientA", "Stock1"), PFloat.val (1429/100), PFloat.val (1429/100)),
       (("ClientA", "Stock2"), PFloat.val (1429/100), PFloat.val (1429/100)),
       (("ClientA", "Stock3"), PFloat.val (1429/100), PFloat.val (1429/100)),
       (("ClientA", "Stock4"), PFloat.val (1429/100), PFloat.val (1429/100)),
       (("ClientA", "Stock5"), PFloat.val (1429/100), PFloat.val (1429/100)),
       (("ClientA", "Stock6"), PFloat.val (1429/100), PFloat.val (1429/100)),
       (("ClientA", "Stock7"), PFloat.val (1429/100), PFloat.val (1429/100))] := by
  unfold exposure_df
  rw [show merged_keys dfSeven ["Qx"] = [("ClientA", "Stock1"), ("ClientA", "Stock2"), ("ClientA", "Stock3"), ("ClientA", "Stock4"), ("ClientA", "Stock5"), ("ClientA", "Stock6"), ("ClientA", "Stock7")] from rfl]
  rw [show future_filtered_df dfSeven ["Qx"] = dfSeven from rfl]
  rw [seven_pct_table]
  simp only [List.map_cons, List.map_nil]
  rw [    show lookupPF [(("ClientA", "Stock1"), PFloat.val (100/7)), (("ClientA", "Stock2"), PFloat.val (100/7)), (("ClientA", "Stock3"), PFloat.val (100/7)), (("ClientA", "Stock4"), PFloat.val (100/7)), (("ClientA", "Stock5"), PFloat.val (100/7)), (("ClientA", "Stock6"), PFloat.val (100/7)), (("ClientA", "Stock7"), PFloat.val (100/7))]
        ("ClientA", "Stock1") = PFloat.val (100/7) from rfl,
    show lookupPF [(("ClientA", "Stock1"), PFloat.val (100/7)), (("ClientA", "Stock2"), PFloat.val (100/7)), (("ClientA", "Stock3"), PFloat.val (100/7)), (("ClientA", "Stock4"), PFloat.val (100/7)), (("ClientA", "Stock5"), PFloat.val (100/7)), (("ClientA", "Stock6"), PFloat.val (100/7)), (("ClientA", "Stock7"), PFloat.val (100/7))]
        ("ClientA", "Stock2") = PFloat.val (100/7) from rfl,
    show lookupPF [(("ClientA", "Stock1"), PFloat.val (100/7)), (("ClientA", "Stock2"), PFloat.val (100/7)), (("ClientA", "Stock3"), PFloat.val (100/7)), (("ClientA", "Stock4"), PFloat.val (100/7)), (("ClientA", "Stock5"), PFloat.val (100/7)), (("ClientA", "Stock6"), PFloat.val (100/7)), (("ClientA", "Stock7"), PFloat.val (100/7))]
        ("ClientA", "Stock3") = PFloat.val (100/7) from rfl,
    show lookupPF [(("ClientA", "Stock1"), PFloat.val (100/7)), (("ClientA", "Stock2"), PFloat.val (100/7)), (("ClientA", "Stock3"), PFloat.val (100/7)), (("ClientA", "Stock4"), PFloat.val (100/7)), (("ClientA", "Stock5"), PFloat.val (100/7)), (("ClientA", "Stock6"), PFloat.val (100/7)), (("ClientA", "Stock7"), PFloat.val (100/7))]
        ("ClientA", "Stock4") = PFloat.val (100/7) from rfl,
    show lookupPF [(("ClientA", "Stock1"), PFloat.val (100/7)), (("ClientA", "Stock2"), PFloat.val (100/7)), (("ClientA", "Stock3"), PFloat.val (100/7)), (("ClientA", "Stock4"), PFloat.val (100/7)), (("ClientA", "Stock5"), PFloat.val (100/7)), (("ClientA", "Stock6"), PFloat.val (100/7)), (("ClientA", "Stock7"), PFloat.val (100/7))]
        ("ClientA", "Stock5") = PFloat.val (100/7) from rfl,
    show lookupPF [(("ClientA", "Stock1"), PFloat.val (100/7)), (("ClientA", "Stock2"), PFloat.val (100/7)), (("ClientA", "Stock3"), PFloat.val (100/7)), (("ClientA", "Stock4"), PFloat.val (100/7)), (("ClientA", "Stock5"), PFloat.val (100/7)), (("ClientA", "Stock6"), PFloat.val (100/7)), (("ClientA", "Stock7"), PFloat.val (100/7))]
        ("ClientA", "Stock6") = PFloat.val (100/7) from rfl,
    show lookupPF [(("ClientA", "Stock1"), PFloat.val (100/7)), (("ClientA", "Stock2"), PFloat.val (100/7)), (("ClientA", "Stock3"), PFloat.val (100/7)), (("ClientA", "Stock4"), PFloat.val (100/7)), (("ClientA", "Stock5"), PFloat.val (100/7)), (("ClientA", "Stock6"), PFloat.val (100/7)), (("ClientA", "Stock7"), PFloat.val (100/7))]
        ("ClientA", "Stock7") = PFloat.val (100/7) from rfl]
  simp [fillna0, round2F, round2_hundred_sevenths]

/-- C3 counterexample: seven equal stocks each round from 100/7 to 14.29,
so the rounded column sums to 100.03 — outside the stated 0.01 tolerance —
while the client total 7 is nonzero. -/
theorem c3_counterexample :
    total_portfolio (filtered_df dfSeven ["ClientA"]
        ["Stock1", "Stock2", "Stock3", "Stock4", "Stock5", "Stock6", "Stock7"]) "ClientA" ≠ 0
    ∧ ¬ (abs (((((exposure_df (filtered_df dfSeven ["ClientA"]
            ["Stock1", "Stock2", "Stock3", "Stock4", "Stock5", "Stock6", "Stock7"]) ["Qx"]).filter
          (fun e => e.1.1 = "ClientA")).map (fun e => ratOf e.2.1)).sum - 100))
        ≤ 1/100) := by
  rw [show filtered_df dfSeven ["ClientA"] ["Stock1", "Stock2", "Stock3", "Stock4", "Stock5", "Stock6", "Stock7"] = dfSeven from rfl]
  constructor
  · rw [seven_total]
    norm_num
  · rw [seven_exposure_df]
    rw [show ([(("ClientA", "Stock1"), PFloat.val (1429/100), PFloat.val (1429/100)),
       (("ClientA", "Stock2"), PFloat.val (1429/100), PFloat.val (1429/100)),
       (("ClientA", "Stock3"), PFloat.val (1429/100), PFloat.val (1429/100)),
       (("ClientA", "Stock4"), PFloat.val (1429/100), PFloat.val (1429/100)),
       (("ClientA", "Stock5"), PFloat.val (1429/100), PFloat.val (1429/100)),
       (("ClientA", "Stock6"), PFloat.val (1429/100), PFloat.val (1429/100)),
       (("ClientA", "Stock7"), PFloat.val (1429/100), PFloat.val (1429/100))]).filter (fun e => e.1.1 = "ClientA")
      = [(("ClientA", "Stock1"), PFloat.val (1429/100), PFloat.val (1429/100)),
       (("ClientA", "Stock2"), PFloat.val (1429/100), PFloat.val (1429/100)),
       (("ClientA", "Stock3"), PFloat.val (1429/100), PFloat.val (1429/100)),
       (("ClientA", "Stock4"), PFloat.val (1429/100), PFloat.val (1429/100)),
       (("ClientA", "Stock5"), PFloat.val (1429/100), PFloat.val (1429/100)),
       (("ClientA", "Stock6"), PFloat.val (1429/100), PFloat.val (1429/100)),
       (("ClientA", "Stock7"), PFloat.val (1429/100), PFloat.val (1429/100))] from rfl]
    simp only [List.map_cons, List.map_nil, ratOf]
    norm_num
    rw [abs_of_nonneg (show (0 : ℚ) ≤ 3/100 by norm_num)]
    norm_num

/-! ### Witnesses -/

/-- Witness for C5 at a concrete empty client selection. -/
theorem c5_witness :
    ∃ msg : String, runPipeline ([] : List ExposureRecord) [] ["StockX"] ["ProdA"]
      = Except.error (Halt.warning msg) :=
  c5_empty_selection_halts [] [] ["StockX"] ["ProdA"] (Or.inl rfl)

/-- Witness for C7: StockX appears only on the current side of the worked
example, and its future percentage is 0. -/
theorem c7_witness :
    ((("ClientA", "StockX"),
      round2F (fillna0 (lookupPF (pct_table dfExample) ("ClientA", "StockX"))),
      round2F (fillna0 (lookupPF
        (pct_table (future_filtered_df dfExample ["ProdA"])) ("ClientA", "StockX")))) :
          (String × String) × PFloat × PFloat).2.2 = PFloat.val 0 := by
  apply (c7_outer_join dfExample ["ProdA"]).2.1
  · exact mem_exposure_df.mpr ⟨("ClientA", "StockX"), by decide, rfl⟩
  · decide

/-- Witness for C10 at ClientB of `dfTwoClients`, who holds no included
product: ClientB/StockY's current and future cells coincide. -/
theorem c10_witness :
    round2F (fillna0 (lookupPF (pct_table (filtered_df dfTwoClients
        ["ClientA", "ClientB"] ["StockX", "StockY"])) ("ClientB", "StockY")))
    = round2F (fillna0 (lookupPF (pct_table (future_filtered_df
        (filtered_df dfTwoClients ["ClientA", "ClientB"] ["StockX", "StockY"])
        ["ProdA"])) ("ClientB", "StockY"))) :=
  c10_untouched_client dfTwoClients ["ClientA", "ClientB"] ["StockX", "StockY"]
    ["ProdA"] "ClientB" (by decide)
    (("ClientB", "StockY"),
      round2F (fillna0 (lookupPF (pct_table (filtered_df dfTwoClients
        ["ClientA", "ClientB"] ["StockX", "StockY"])) ("ClientB", "StockY"))),
      round2F (fillna0 (lookupPF (pct_table (future_filtered_df
        (filtered_df dfTwoClients ["ClientA", "ClientB"] ["StockX", "StockY"])
        ["ProdA"])) ("ClientB", "StockY"))))
    (mem_exposure_df.mpr ⟨("ClientB", "StockY"), by decide, rfl⟩) rfl

/-- Witness for C8 on the nonempty worked example. -/
theorem c8_witness :
    ∃ ws : List ℤ,
      all_weeks (filtered_df dfExample ["ClientA"] ["StockX", "StockY"]) = some ws
      ∧ (∀ w : ℤ, w ∈ ws ↔ 7 ∣ w
          ∧ min_week (filtered_df dfExample ["ClientA"] ["StockX", "StockY"]) ≤ w
          ∧ w ≤ max_week (filtered_df dfExample ["ClientA"] ["StockX", "StockY"]))
      ∧ (∀ s ∈ all_stocks dfExample, ∀ w ∈ ws,
          heatmap_pivot (filtered_df dfExample ["ClientA"] ["StockX", "StockY"]) s w
            = maturing_sum (filtered_df dfExample ["ClientA"] ["StockX", "StockY"]) s w)
      ∧ (∀ (s : String) (w : ℤ),
          (∀ r ∈ filtered_df dfExample ["ClientA"] ["StockX", "StockY"],
            ¬(r.name = s ∧ weekStart r.maturityDate = w)) →
          heatmap_pivot (filtered_df dfExample ["ClientA"] ["StockX", "StockY"]) s w
            = 0) :=
  c8_timeline_matrix dfExample ["ClientA"] ["StockX", "StockY"] (by decide)

/-- Witness for C1 on the all-zero client of `dfZero`. -/
theorem c1_witness :
    (∀ e ∈ exposure_df (filtered_df dfZero ["ClientA"] ["StockX"]) ["Qx"],
        e.2.1 ≠ PFloat.nan ∧ e.2.2 ≠ PFloat.nan)
    ∧ (∀ c : String,
        total_portfolio (filtered_df dfZero ["ClientA"] ["StockX"]) c = 0 →
        ∀ e ∈ exposure_df (filtered_df dfZero ["ClientA"] ["StockX"]) ["Qx"],
          e.1.1 = c → e.2.1 = PFloat.val 0)
    ∧ (∀ c : String,
        total_portfolio (future_filtered_df
            (filtered_df dfZero ["ClientA"] ["StockX"]) ["Qx"]) c = 0 →
        ∀ e ∈ exposure_df (filtered_df dfZero ["ClientA"] ["StockX"]) ["Qx"],
          e.1.1 = c → e.2.2 = PFloat.val 0) := by
  apply c1_zero_denominator dfZero ["ClientA"] ["StockX"] ["Qx"]
  intro r hr
  rw [show filtered_df dfZero ["ClientA"] ["StockX"] = dfZero from rfl] at hr
  simp only [dfZero, List.mem_singleton] at hr
  subst hr
  norm_num

/-- Witness for C4 at the ClientA/StockX cell of the nonnegative 60/40
portfolio. -/
theorem c4_witness :
    (∃ q : ℚ, 0 ≤ q ∧ q ≤ 100
      ∧ fillna0 (lookupPF (pct_table
          (filtered_df dfSixty ["ClientA"] ["StockX", "StockY"]))
          ("ClientA", "StockX")) = PFloat.val q
      ∧ round2F (fillna0 (lookupPF (pct_table
          (filtered_df dfSixty ["ClientA"] ["StockX", "StockY"]))
          ("ClientA", "StockX"))) = PFloat.val (round2 q)
      ∧ 0 ≤ round2 q ∧ round2 q ≤ 100)
    ∧ (∃ q : ℚ, 0 ≤ q ∧ q ≤ 100
      ∧ fillna0 (lookupPF (pct_table (future_filtered_df
          (filtered_df dfSixty ["ClientA"] ["StockX", "StockY"]) ["Qx"]))
          ("ClientA", "StockX")) = PFloat.val q
      ∧ round2F (fillna0 (lookupPF (pct_table (future_filtered_df
          (filtered_df dfSixty ["ClientA"] ["StockX", "StockY"]) ["Qx"]))
          ("ClientA", "StockX"))) = PFloat.val (round2 q)
      ∧ 0 ≤ round2 q ∧ round2 q ≤ 100) := by
  have hnn : ∀ r ∈ filtered_df dfSixty ["ClientA"] ["StockX", "StockY"],
      0 ≤ r.exposureAmount := by
    intro r hr
    rw [show filtered_df dfSixty ["ClientA"] ["StockX", "StockY"] = dfSixty from rfl] at hr
    simp only [dfSixty, List.mem_cons, List.not_mem_nil, or_false] at hr
    rcases hr with rfl | rfl <;> norm_num
  exact c4_pct_range dfSixty ["ClientA"] ["StockX", "StockY"] ["Qx"] hnn
    (("ClientA", "StockX"),
      round2F (fillna0 (lookupPF (pct_table
        (filtered_df dfSixty ["ClientA"] ["StockX", "StockY"]))
        ("ClientA", "StockX"))),
      round2F (fillna0 (lookupPF (pct_table (future_filtered_df
        (filtered_df dfSixty ["ClientA"] ["StockX", "StockY"]) ["Qx"]))
        ("ClientA", "StockX"))))
    (mem_exposure_df.mpr ⟨("ClientA", "StockX"), by decide, rfl⟩)

/-- Witness for C3 on the 60/40 portfolio: both totals are nonzero. -/
theorem c3_witness :
    (abs ((((exposure_df (filtered_df dfSixty ["ClientA"] ["StockX", "StockY"])
              ["Qx"]).filter (fun e => e.1.1 = "ClientA")).map
            (fun e => ratOf e.2.1)).sum - 100)
        ≤ ((((exposure_df (filtered_df dfSixty ["ClientA"] ["StockX", "StockY"])
              ["Qx"]).filter (fun e => e.1.1 = "ClientA")).length : ℚ)) * (1/200)
      ∧ ∀ e ∈ (exposure_df (filtered_df dfSixty ["ClientA"] ["StockX", "StockY"])
              ["Qx"]).filter (fun e => e.1.1 = "ClientA"),
          e.2.1 = PFloat.val (ratOf e.2.1))
    ∧ (abs ((((exposure_df (filtered_df dfSixty ["ClientA"] ["StockX", "StockY"])
              ["Qx"]).filter (fun e => e.1.1 = "ClientA")).map
            (fun e => ratOf e.2.2)).sum - 100)
        ≤ ((((exposure_df (filtered_df dfSixty ["ClientA"] ["StockX", "StockY"])
              ["Qx"]).filter (fun e => e.1.1 = "ClientA")).length : ℚ)) * (1/200)
      ∧ ∀ e ∈ (exposure_df (filtered_df dfSixty ["ClientA"] ["StockX", "StockY"])
              ["Qx"]).filter (fun e => e.1.1 = "ClientA"),
          e.2.2 = PFloat.val (ratOf e.2.2)) := by
  have htot : total_portfolio dfSixty "ClientA" = 1000 := by
    rw [total_portfolio_eq_sum_rows]
    rw [show dfSixty.filter (fun r => r.fullName = "ClientA") = dfSixty from rfl]
    norm_num [dfSixty]
  constructor
  · apply (c3_pct_sum dfSixty ["ClientA"] ["StockX", "StockY"] ["Qx"] "ClientA").1
    rw [show filtered_df dfSixty ["ClientA"] ["StockX", "StockY"] = dfSixty from rfl,
      htot]
    norm_num
  · apply (c3_pct_sum dfSixty ["ClientA"] ["StockX", "StockY"] ["Qx"] "ClientA").2
    rw [show future_filtered_df (filtered_df dfSixty ["ClientA"] ["StockX", "StockY"])
        ["Qx"] = dfSixty from rfl, htot]
    norm_num
